import Mathlib

/-!
Verification of the transformer pipeline in `src/transformers.py`.

A pandas `DataFrame` is shallowly embedded as an ordered association list of
named columns; each column is a list of cells, a cell being `Option α`
(`none` is `NaN`).  Row indices are the default `RangeIndex`, so positional
and label alignment coincide; all tables produced by the pipeline are of
this shape.  Numeric cells are exact rationals (the claims under check are
about which statistic lands where, not about float rounding), and real
numbers are used where the code produces irrational values (cosine encodings,
standard deviations).  External collaborators (`pd.to_datetime`, `pd.to_numeric`
string parsing) are passed in as explicit function parameters.
-/

set_option autoImplicit false

universe u

/-- A cell value of a heterogeneous pandas table: a rational number, a string,
or a datetime (kept as its month and day-of-year, the only two fields the
code reads). -/
inductive Val where
  | num (q : ℚ)
  | str (s : String)
  | dt (month doy : ℕ)
deriving DecidableEq, Repr

/-- Cell values for tables that hold real-valued results (cosine encodings,
standardized columns). -/
inductive RVal where
  | num (r : ℝ)
  | str (s : String)
  | dt (month doy : ℕ)

/-- A pandas `DataFrame`: an ordered list of named columns, each a list of
optional cells (`none` = `NaN`). -/
abbrev Frame (α : Type u) := List (String × List (Option α))

namespace Frame

variable {α : Type u}

/-- The column labels, in order. -/
def names (X : Frame α) : List String := X.map Prod.fst

/-- `X[c]`: the first column labelled `c`, if any. -/
def lookupCol (c : String) : Frame α → Option (List (Option α))
  | [] => none
  | e :: t => if e.1 = c then some e.2 else lookupCol c t

/-- `X[c]` with `[]` for an absent column (the code would raise `KeyError`;
theorems that depend on a column put its presence in their hypotheses). -/
def getColD (c : String) (X : Frame α) : List (Option α) := (lookupCol c X).getD []

/-- `c in X.columns`. -/
def hasCol (c : String) : Frame α → Bool
  | [] => false
  | e :: t => e.1 = c || hasCol c t

/-- `X[c] = f (X[c])`: rewrite the cells of every column labelled `c`. -/
def mapCol (c : String) (f : List (Option α) → List (Option α)) : Frame α → Frame α
  | [] => []
  | e :: t => (e.1, if e.1 = c then f e.2 else e.2) :: mapCol c f t

/-- `X[c] = col`: replace the column if the label exists, else append it at
the end (pandas column assignment). -/
def setCol (c : String) (col : List (Option α)) (X : Frame α) : Frame α :=
  if hasCol c X then mapCol c (fun _ => col) X else X ++ [(c, col)]

/-- `X.drop(columns=[c])` for a present label: remove every column labelled `c`. -/
def dropCol (c : String) : Frame α → Frame α
  | [] => []
  | e :: t => if e.1 = c then dropCol c t else e :: dropCol c t

/-- Drop a list of labels. -/
def dropCols (cs : List String) (X : Frame α) : Frame α :=
  cs.foldl (fun Y c => dropCol c Y) X

/-- Apply `f` to every cell of every column (`DataFrame.fillna` shape). -/
def mapCells (f : Option α → Option α) : Frame α → Frame α
  | [] => []
  | e :: t => (e.1, e.2.map f) :: mapCells f t

/-- The cell of column `c` at row `i` (missing column or out-of-range row
count as `NaN`). -/
def getCell (c : String) (i : ℕ) (X : Frame α) : Option α :=
  ((getColD c X)[i]?).join

end Frame

/-- Map a list with access to the position, starting at index `k`. -/
def idxMap {α β : Type u} (f : ℕ → Option α → Option β) : ℕ → List (Option α) → List (Option β)
  | _, [] => []
  | k, c :: t => f k c :: idxMap f (k + 1) t

/-- The non-missing values of a column (every pandas statistic is `skipna`). -/
def qvals (c : List (Option ℚ)) : List ℚ := c.filterMap id

/-- `Series.max()`: maximum of the present values, `NaN` when there is none. -/
def qmaxO : List ℚ → Option ℚ
  | [] => none
  | x :: t =>
    match qmaxO t with
    | none => some x
    | some m => some (max x m)

def qsum : List ℚ → ℚ
  | [] => 0
  | x :: t => x + qsum t

/-- `Series.mean()`: mean of the present values, `NaN` when there is none. -/
def qmean (l : List ℚ) : Option ℚ :=
  if l = [] then none else some (qsum l / l.length)

/-- `Series.var(ddof=0)`, the variance `StandardScaler` learns. -/
def qvar (l : List ℚ) : Option ℚ :=
  if l = [] then none else some (qsum (l.map (fun x => x * x)) / l.length - (qsum l / l.length) ^ 2)

def sortedInsert (x : ℚ) : List ℚ → List ℚ
  | [] => [x]
  | y :: t => if x ≤ y then x :: y :: t else y :: sortedInsert x t

/-- Ascending insertion sort (pandas `mode` reports ties in ascending order). -/
def qsort (l : List ℚ) : List ℚ := l.foldr sortedInsert []

/-- `Series.mode()`: all values of maximal multiplicity, ascending;
empty for an all-`NaN` column. -/
def modesOf (l : List ℚ) : List ℚ :=
  let u := qsort l.dedup
  let mf := (u.map (fun x => l.count x)).foldl max 0
  u.filter (fun x => l.count x = mf)

/-- `Series.median()`: middle of the sorted present values, averaging the two
middles for an even count. -/
def medianQ (l : List ℚ) : Option ℚ :=
  let s := qsort l
  let n := s.length
  if n = 0 then none
  else if n % 2 = 1 then some (s.getD (n / 2) 0)
  else some ((s.getD (n / 2 - 1) 0 + s.getD (n / 2) 0) / 2)

/-- First-match association lookup (a pandas `Series` indexed by label). -/
def alookup {β : Type u} : List (String × β) → String → Option β
  | [], _ => none
  | e :: t, c => if e.1 = c then some e.2 else alookup t c

/-- The rational carried by a numeric cell. -/
def Val.numQ : Val → Option ℚ
  | Val.num q => some q
  | _ => none

/-- `pd.api.types.is_numeric_dtype` on a column: in this embedding a column is
numeric when no cell holds a string or a datetime (an all-`NaN` column is a
float column, hence numeric). -/
def colNumeric (col : List (Option Val)) : Bool :=
  col.all (fun c =>
    match c with
    | none => true
    | some (Val.num _) => true
    | some _ => false)

/-- `X.apply(is_numeric_dtype).all()`: the check `PartialStandardScaler`
runs on the whole table. -/
def frameNumeric (X : Frame Val) : Bool := X.all (fun e => colNumeric e.2)

/-- `pd.to_numeric(·, errors="coerce").astype(float)` on one cell;
`np` is the external numeric string parser (unparseable strings and
datetimes coerce to `NaN`). -/
def toNumeric (np : String → Option ℚ) : Val → Option ℚ
  | Val.num q => some q
  | Val.str s => np s
  | Val.dt _ _ => none

/-! ## `DropNaRate` (src/transformers.py:47-64) -/

structure DropNaRateState where
  rate : ℚ
  cols_to_drop : List String
deriving DecidableEq, Repr

/-- Fraction of missing entries of a column (`X.isna().sum()/X.shape[0]`,
with the column length as the row count of the rectangular table). -/
def naRate {α : Type u} (col : List (Option α)) : ℚ :=
  (col.countP Option.isNone : ℚ) / (col.length : ℚ)

/-- `DropNaRate.fit`: record the columns whose missing fraction strictly
exceeds the rate (src/transformers.py:51-58). -/
def DropNaRate.fit {α : Type u} (rate : ℚ) (X : Frame α) : DropNaRateState :=
  { rate
    cols_to_drop := (X.filter (fun e => rate < naRate e.2)).map Prod.fst }

/-- `DropNaRate.transform` (src/transformers.py:60-64): `X.drop(columns=...)`
without `errors="ignore"`, so pandas raises `KeyError` when any recorded
label is absent; the raise is modelled as `none`. -/
def DropNaRate.transform {α : Type u} (st : DropNaRateState) (X : Frame α) : Option (Frame α) :=
  if st.cols_to_drop.all (fun c => Frame.hasCol c X) then
    some (Frame.dropCols st.cols_to_drop X)
  else none

/-! ## `MissingCat` (src/transformers.py:479-495) -/

structure MissingCatState where
  columns : List String
deriving DecidableEq, Repr

/-- `MissingCat.fit` only logs; the designated columns are kept as state. -/
def MissingCat.fit (columns : List String) : MissingCatState := ⟨columns⟩

/-- `MissingCat.transform` (src/transformers.py:491-495):
`X.copy().fillna("missing", axis=1)` — a scalar fill of the whole table,
`self.columns` is not consulted. -/
def MissingCat.transform (_st : MissingCatState) (X : Frame Val) : Frame Val :=
  Frame.mapCells (fun c => some (c.getD (Val.str "missing"))) X

/-! ## `AltitudeTrans` (src/transformers.py:117-151) -/

structure AltitudeTransState where
  columns : List String
  max_altitude : List (String × Option ℚ)
  most_frequent : List (String × List ℚ)
  mean : List (String × Option ℚ)
deriving DecidableEq, Repr

/-- The values of a column kept by the fit-time mask
`(X[cols] >= 0) & (X[cols] <= max)`; a `NaN` max keeps nothing, as the
pandas comparison to `NaN` is `False`. -/
def maskedVals (col : List (Option ℚ)) (mx : Option ℚ) : List ℚ :=
  (qvals col).filter (fun v => decide (0 ≤ v) && mx.elim false (fun m => decide (v ≤ m)))

/-- `AltitudeTrans.fit` (src/transformers.py:130-139): per designated column,
the max of the raw values, the modes of the `[0, max]`-masked values, and the
mean of the raw values. -/
def AltitudeTrans.fit (columns : List String) (X : Frame ℚ) : AltitudeTransState :=
  { columns
    max_altitude := columns.map (fun c => (c, qmaxO (qvals (Frame.getColD c X))))
    most_frequent := columns.map (fun c =>
      (c, modesOf (maskedVals (Frame.getColD c X) (qmaxO (qvals (Frame.getColD c X))))))
    mean := columns.map (fun c => (c, qmean (qvals (Frame.getColD c X)))) }

/-- `Series.clip(upper=m)` on one cell; a `NaN` bound or cell is a no-op. -/
def clipCell (mx : Option ℚ) (cell : Option ℚ) : Option ℚ :=
  match cell, mx with
  | some v, some m => some (min v m)
  | c, _ => c

/-- One cell of the negative-value replacement: `most_frequent[col]` is a
column of the `mode()` DataFrame, so `X.loc[X[col] < 0, col] = ...` aligns
it by row label; a negative cell at row `i` receives the i-th mode (rows
beyond the mode list, or at its `NaN` padding, become `NaN`). -/
def negCell (ms : List ℚ) (i : ℕ) (cell : Option ℚ) : Option ℚ :=
  match cell with
  | some v => if v < 0 then ms[i]? else some v
  | none => none

/-- `X.loc[X[col] < 0, col] = self.most_frequent[col]` on the whole column. -/
def negReplaceCol (ms : List ℚ) (col : List (Option ℚ)) : List (Option ℚ) :=
  idxMap (negCell ms) 0 col

/-- `X = X.fillna(self.mean[col])`: fill every missing cell of the whole
table (filling with a `NaN` mean is a no-op). -/
def fillAll (v : Option ℚ) (X : Frame ℚ) : Frame ℚ :=
  match v with
  | none => X
  | some q => Frame.mapCells (fun c => some (c.getD q)) X

/-- One iteration of the `transform` loop (src/transformers.py:143-149):
clip the column at the learned max, replace its negatives by the aligned
learned modes, then fill the whole table with the column's learned mean. -/
def AltitudeTrans.stepCol (st : AltitudeTransState) (X : Frame ℚ) (c : String) : Frame ℚ :=
  let X1 := Frame.mapCol c (List.map (clipCell ((alookup st.max_altitude c).getD none))) X
  let X2 := Frame.mapCol c (negReplaceCol ((alookup st.most_frequent c).getD [])) X1
  fillAll ((alookup st.mean c).getD none) X2

/-- The table produced by `AltitudeTrans.transform`. -/
def AltitudeTrans.transformTable (st : AltitudeTransState) (X : Frame ℚ) : Frame ℚ :=
  st.columns.foldl (AltitudeTrans.stepCol st) X

/-- `AltitudeTrans.transform` (src/transformers.py:141-151): the method reads
`self.max_altitude`, `self.most_frequent`, `self.mean` and assigns no
attribute, so the state it leaves behind is the state it received. -/
def AltitudeTrans.transform (st : AltitudeTransState) (X : Frame ℚ) :
    AltitudeTransState × Frame ℚ :=
  (st, AltitudeTrans.transformTable st X)

/-! ## `PartialStandardScaler` (src/transformers.py:154-209) -/

/-- The constructor's `columns` argument: a list, or the literal `"all"`. -/
inductive ColsSpec where
  | all : ColsSpec
  | listC (l : List String) : ColsSpec
deriving DecidableEq, Repr

structure PSSState where
  columns : List String
  meanV : List (String × Option ℚ)
  varV : List (String × Option ℚ)
  with_mean : Bool
  with_std : Bool
deriving DecidableEq, Repr

/-- The assertion message at src/transformers.py:187-188 and 196-197. -/
def assertMsg : String := "Some columns to standardize are not numerics"

/-- The non-missing numeric values of a `Val` column. -/
def numValsOf (col : List (Option Val)) : List ℚ := col.filterMap (fun c => c.bind Val.numQ)

/-- `self.columns` after the `"all"` resolution at src/transformers.py:184-185. -/
def resolveCols : ColsSpec → Frame Val → List String
  | ColsSpec.all, X => Frame.names X
  | ColsSpec.listC l, _ => l

/-- `PartialStandardScaler.fit` (src/transformers.py:182-192): resolve
`"all"`, assert that every column of `X` (not only the selected ones) is
numeric, then learn the per-column mean and variance of the selected columns
(`StandardScaler` skips `NaN`s); a selected label absent from `X` raises
`KeyError`. -/
def PartialStandardScaler.fit (cols : ColsSpec) (wm ws : Bool) (X : Frame Val) :
    Except String PSSState :=
  if frameNumeric X then
    if (resolveCols cols X).all (fun c => Frame.hasCol c X) then
      Except.ok
        { columns := resolveCols cols X
          meanV := (resolveCols cols X).map (fun c => (c, qmean (numValsOf (Frame.getColD c X))))
          varV := (resolveCols cols X).map (fun c => (c, qvar (numValsOf (Frame.getColD c X))))
          with_mean := wm
          with_std := ws }
    else Except.error "KeyError"
  else Except.error assertMsg

/-- `scale_`: `sqrt` of the learned variance, with zero variance mapped to 1
(`sklearn`'s `_handle_zeros_in_scale`). -/
noncomputable def stdScale (v : Option ℚ) : ℝ :=
  match v with
  | none => 1
  | some q => if q = 0 then 1 else Real.sqrt (q : ℝ)

/-- A standardized cell: subtract the learned mean if `with_mean`, divide by
the learned scale if `with_std`; `NaN` propagates. -/
noncomputable def stdCell (wm ws : Bool) (mean : Option ℚ) (scale : ℝ) (cell : Option Val) :
    Option RVal :=
  cell.bind (fun v =>
    match v with
    | Val.num q =>
      some (RVal.num (((q : ℝ) - (if wm then ((mean.getD 0 : ℚ) : ℝ) else 0)) /
        (if ws then scale else 1)))
    | _ => none)

/-- Embed an untouched cell into the real-valued output table. -/
def Val.toR : Val → RVal
  | Val.num q => RVal.num (q : ℝ)
  | Val.str s => RVal.str s
  | Val.dt m d => RVal.dt m d

/-- `PartialStandardScaler.transform` (src/transformers.py:194-209): the same
whole-table numeric assertion, then the selected columns are standardized
with the frozen statistics and re-attached after the untouched columns
(`pd.concat([X.drop(cols), standardized])`).  No attribute is assigned, so
the state returned is the state received. -/
noncomputable def PartialStandardScaler.transform (st : PSSState) (X : Frame Val) :
    PSSState × Except String (Frame RVal) :=
  (st,
    if frameNumeric X then
      if st.columns.all (fun c => Frame.hasCol c X) then
        Except.ok
          ((Frame.dropCols st.columns X).map (fun e => (e.1, e.2.map (fun c => c.map Val.toR)))
            ++ st.columns.map (fun c =>
              (c, (Frame.getColD c X).map
                (stdCell st.with_mean st.with_std
                  ((alookup st.meanV c).getD none)
                  (stdScale ((alookup st.varV c).getD none))))))
      else Except.error "KeyError"
    else Except.error assertMsg)

/-! ## `DateTransformer` (src/transformers.py:67-96) -/

structure DateTransformerState where
  date_cols : List String
  time_cols : List String
deriving DecidableEq, Repr

/-- `"tok" in col` (Python substring test on a column name). -/
def containsTok (s tok : String) : Bool := decide (tok.toList <:+: s.toList)

/-- `DateTransformer.fit` (src/transformers.py:79-82): record the columns
whose name contains `"date"` resp. `"time"`. -/
def DateTransformer.fit {α : Type u} (X : Frame α) : DateTransformerState :=
  { date_cols := (Frame.names X).filter (fun c => containsTok c "date")
    time_cols := (Frame.names X).filter (fun c => containsTok c "time") }

/-- The cyclical encoding `np.cos((x - 1) * 2 * np.pi / 365.25)` the code
applies to a day-of-year (src/transformers.py:88-89). -/
noncomputable def DateTransformer.encode (d : ℕ) : ℝ :=
  Real.cos (((d : ℝ) - 1) * 2 * Real.pi / 365.25)

/-- The encoding the specification states, `cos(2π · day_of_year / 365.25)`,
written from the spec's words for comparison with `DateTransformer.encode`. -/
noncomputable def DateTransformer.encodeClaimed (d : ℕ) : ℝ :=
  Real.cos (2 * Real.pi * (d : ℝ) / 365.25)

/-- `pd.to_datetime(·, errors="coerce").dt.dayofyear` followed by the cosine:
`parse` is the external datetime parser returning (month, day-of-year);
an unparseable or missing cell is `NaT`, whose day-of-year is `NaN`, and
`np.cos(NaN)` is `NaN`. -/
noncomputable def dateCell (parse : RVal → Option (ℕ × ℕ)) (cell : Option RVal) : Option RVal :=
  (cell.bind parse).map (fun p => RVal.num (DateTransformer.encode p.2))

/-- `X[col].apply(lambda x: np.cos(x * 2 * np.pi / 24))` on one cell
(non-numeric cells cannot occur on the tables the claims quantify over and
are left unchanged). -/
noncomputable def timeCell (cell : Option RVal) : Option RVal :=
  cell.map (fun v =>
    match v with
    | RVal.num r => RVal.num (Real.cos (r * 2 * Real.pi / 24))
    | w => w)

/-- `DateTransformer.transform` (src/transformers.py:84-96): on a copy, every
recorded date column is cosine-encoded if it is `meteo_date` and dropped
otherwise; then every recorded time column is hour-encoded. -/
noncomputable def DateTransformer.transform (st : DateTransformerState)
    (parse : RVal → Option (ℕ × ℕ)) (X : Frame RVal) : Frame RVal :=
  let X1 := st.date_cols.foldl (fun Y c =>
    if c = "meteo_date" then Frame.mapCol c (List.map (dateCell parse)) Y
    else Frame.dropCol c Y) X
  st.time_cols.foldl (fun Y c => Frame.mapCol c (List.map timeCell) Y) X1

/-! ## `CleanFeatures` (src/transformers.py:214-298) -/

/-- The rainfall column name used at src/transformers.py:238. -/
def meteoName : String := "meteo_rain_height"

structure CleanFeaturesState where
  department_col : String
  date_col : String
  meteo_group_means : List ((Val × ℚ) × Option ℚ)
  cols_to_handle : List String
  department_medians : List (String × List (Val × Option ℚ))
deriving DecidableEq, Repr

/-- `pd.to_datetime(X[date_col])` on a column: `pdt` is the external datetime
parser (month, day-of-year); its result is stored as a datetime cell. -/
def convertDateCol (pdt : Val → Option (ℕ × ℕ)) (col : List (Option Val)) : List (Option Val) :=
  col.map (fun c => (c.bind pdt).map (fun p => Val.dt p.1 p.2))

/-- `X[date_col].dt.month` on a converted column. -/
def monthCol (col : List (Option Val)) : List (Option Val) :=
  col.map (fun c => c.bind (fun v =>
    match v with
    | Val.dt m _ => some (Val.num (m : ℚ))
    | _ => none))

/-- The distinct (department, month) keys of the grouped rows; pandas
`groupby` drops rows whose key holds a `NaN`. -/
def pairKeys (dcol mcol : List (Option Val)) : List (Val × ℚ) :=
  ((dcol.zip mcol).filterMap (fun p =>
    match p.1, p.2 with
    | some d, some (Val.num m) => some (d, m)
    | _, _ => none)).dedup

/-- The numeric rainfall values of the rows carrying a given
(department, month) key. -/
def keyVals (dcol mcol vcol : List (Option Val)) (k : Val × ℚ) : List ℚ :=
  ((dcol.zip mcol).zip vcol).filterMap (fun p =>
    if p.1.1 = some k.1 ∧ p.1.2 = some (Val.num k.2) then p.2.bind Val.numQ else none)

/-- `X.groupby([dept, "month"])[meteo].mean()` as a key-indexed table. -/
def computeMeans (dcol mcol vcol : List (Option Val)) : List ((Val × ℚ) × Option ℚ) :=
  (pairKeys dcol mcol).map (fun k => (k, qmean (keyVals dcol mcol vcol k)))

/-- First-match lookup in the learned (department, month) mean table. -/
def alookupKey (l : List ((Val × ℚ) × Option ℚ)) (k : Val × ℚ) : Option (Option ℚ) :=
  (l.find? (fun e => e.1 = k)).map Prod.snd

/-- The numeric values of `coerced` on the rows whose department cell equals
`some dv` (one `groupby(dept)` group). -/
def deptGroupVals (deptCol coerced : List (Option Val)) (dv : Val) : List ℚ :=
  (deptCol.zip coerced).filterMap (fun p =>
    if p.1 = some dv then p.2.bind Val.numQ else none)

/-- `X.groupby(dept)[col].median()` at fit time, keyed by department value. -/
def deptMedians (deptCol coerced : List (Option Val)) : List (Val × Option ℚ) :=
  ((deptCol.filterMap id).dedup).map (fun dv => (dv, medianQ (deptGroupVals deptCol coerced dv)))

/-- Coerce a column with `pd.to_numeric(·, errors="coerce").astype(float)`. -/
def coerceCol (np : String → Option ℚ) (col : List (Option Val)) : List (Option Val) :=
  col.map (fun cell => (cell.bind (toNumeric np)).map Val.num)

/-- `X[col].fillna(X.groupby(dept)[col].transform("median"))` on a coerced
column: each missing cell receives the median of the coerced values of the
rows sharing its department (a `NaN` department keeps `NaN`, as `groupby`
drops it). -/
def medianFilledCol (deptCol coerced : List (Option Val)) : List (Option Val) :=
  idxMap (fun i cell =>
    match cell with
    | some v => some v
    | none =>
      match deptCol[i]? with
      | some (some dv) => (medianQ (deptGroupVals deptCol coerced dv)).map Val.num
      | _ => none) 0 coerced

/-- One iteration of the non-rainfall loop of `CleanFeatures.transform`
(src/transformers.py:288-294): coerce the column in place, then fill its
missing cells with the per-department medians of the table being
transformed. -/
def medianFillStep (np : String → Option ℚ) (dept c : String) (Y : Frame Val) : Frame Val :=
  let coerced := coerceCol np (Frame.getColD c Y)
  let Y1 := Frame.setCol c coerced Y
  Frame.setCol c (medianFilledCol (Frame.getColD dept Y1) coerced) Y1

/-- One iteration of the non-rainfall loop of `CleanFeatures.fit`
(src/transformers.py:255-261): coerce the column in place on the caller's
table and record its per-department medians. -/
def CleanFeatures.fitStep (dept : String) (np : String → Option ℚ)
    (acc : Frame Val × List (String × List (Val × Option ℚ))) (c : String) :
    Frame Val × List (String × List (Val × Option ℚ)) :=
  if c = meteoName then acc
  else
    let coerced := coerceCol np (Frame.getColD c acc.1)
    let Y := Frame.setCol c coerced acc.1
    (Y, acc.2 ++ [(c, deptMedians (Frame.getColD dept Y) coerced)])

/-- `CleanFeatures.fit` (src/transformers.py:236-266).  The method mutates
the caller's table in place (`X[date_col] = ...`, `X["month"] = ...`,
`X[col] = pd.to_numeric(...)`), so the embedding returns, next to the
learned state, the table the caller is left holding. -/
def CleanFeatures.fit (dept dcol : String) (cols : List String)
    (pdt : Val → Option (ℕ × ℕ)) (np : String → Option ℚ) (X : Frame Val) :
    CleanFeaturesState × Frame Val :=
  let X1 := if meteoName ∈ cols then
      let Xa := Frame.mapCol dcol (convertDateCol pdt) X
      Frame.setCol "month" (monthCol (Frame.getColD dcol Xa)) Xa
    else X
  let means := if meteoName ∈ cols then
      computeMeans (Frame.getColD dept X1) (Frame.getColD "month" X1) (Frame.getColD meteoName X1)
    else []
  let r := cols.foldl (CleanFeatures.fitStep dept np) (X1, [])
  ({ department_col := dept
     date_col := dcol
     meteo_group_means := means
     cols_to_handle := cols
     department_medians := r.2 }, r.1)

/-- The rainfall branch of `CleanFeatures.transform`
(src/transformers.py:273-285): convert the date column, add the month
column, left-join the learned (department, month) means on those keys and
fill the rainfall column's missing cells from the joined means (an unseen
key stays missing), then drop the joined mean and the month column.  The
join carries unique keys, so it preserves the rows; the merge of the mean
column and its drop are fused into the fill. -/
def rainStep (st : CleanFeaturesState) (pdt : Val → Option (ℕ × ℕ)) (X : Frame Val) : Frame Val :=
  let Xa := Frame.mapCol st.date_col (convertDateCol pdt) X
  let Xb := Frame.setCol "month" (monthCol (Frame.getColD st.date_col Xa)) Xa
  let dcolv := Frame.getColD st.department_col Xb
  let mcolv := Frame.getColD "month" Xb
  let Xc := Frame.mapCol meteoName (fun col => idxMap (fun i cell =>
    match cell with
    | some v => some v
    | none =>
      match dcolv[i]?, mcolv[i]? with
      | some (some d), some (some (Val.num m)) =>
        ((alookupKey st.meteo_group_means (d, m)).getD none).map Val.num
      | _, _ => none) 0 col) Xb
  Frame.dropCol "month" Xc

/-- `CleanFeatures.transform` (src/transformers.py:268-298): the rainfall
branch when the rainfall column is designated, then the per-department
median fill for every other designated column. -/
def CleanFeatures.transform (st : CleanFeaturesState) (pdt : Val → Option (ℕ × ℕ))
    (np : String → Option ℚ) (X : Frame Val) : Frame Val :=
  let X1 := if meteoName ∈ st.cols_to_handle then rainStep st pdt X else X
  st.cols_to_handle.foldl (fun Y c =>
    if c = meteoName then Y else medianFillStep np st.department_col c Y) X1

/-! ## Concrete fixtures used by counterexamples and witnesses -/

/-- Altitude fit table: column `a` has max 2, mode `[2]`, mean `-4`;
column `b` has max 7, modes `[5, 7]`, mean 6. -/
def altT0 : Frame ℚ := [("a", [some (-10), some 2]), ("b", [some 5, some 7])]

/-- Altitude transform table: both designated columns missing. -/
def altX0 : Frame ℚ := [("a", [none]), ("b", [none])]

/-- Altitude fit table for C9: `a` has mean 10, `b` has max 3. -/
def altT9 : Frame ℚ := [("a", [some 10]), ("b", [some 3])]

/-- Altitude transform table for C9: `b` and an undesignated `z` are missing. -/
def altX9 : Frame ℚ := [("a", [some 1]), ("b", [none]), ("z", [none])]

/-- Table whose 80%-missing column `a` exceeds a 0.5 threshold. -/
def dnrT0 : Frame Val :=
  [("a", [none, none, none, none, some (Val.num 1)]),
   ("b", [some (Val.num 1), some (Val.num 2), some (Val.num 3), some (Val.num 4),
          some (Val.num 5)])]

/-- A table lacking the recorded column `a`. -/
def dnrX0 : Frame Val := [("b", [some (Val.num 2)])]

/-- MissingCat input: designated `c`, undesignated `d` with a missing entry. -/
def mcX0 : Frame Val := [("c", [none]), ("d", [none, some (Val.num 1)])]

/-- Scaler input whose selected column `a` is numeric while `b` is not. -/
def pssX0 : Frame Val :=
  [("a", [some (Val.num 1), some (Val.num 2)]), ("b", [some (Val.str "x"), some (Val.str "y")])]

/-- An all-numeric scaler fit table. -/
def pssX1 : Frame Val := [("a", [some (Val.num 1), some (Val.num 3)])]

/-- A date table with one parseable `meteo_date` value. -/
def dtX0 : Frame RVal := [("meteo_date", [some (RVal.str "2021-01-01")])]

/-- A concrete datetime parser for the date fixtures: `"2021-01-01"` is
day-of-year 1 of month 1. -/
def dtParse0 : RVal → Option (ℕ × ℕ)
  | RVal.str "2021-01-01" => some (1, 1)
  | _ => none

/-- A concrete datetime parser over `Val` cells. -/
def pdt0 : Val → Option (ℕ × ℕ)
  | Val.str "2020-05-01" => some (5, 122)
  | Val.dt m d => some (m, d)
  | _ => none

/-- A concrete numeric string parser: only `"7"` parses. -/
def np0 : String → Option ℚ
  | "7" => some 7
  | _ => none

/-- CleanFeatures fixture: department and one designated numeric column with
a missing entry. -/
def cfX0 : Frame Val :=
  [("d", [some (Val.str "A"), some (Val.str "A")]), ("i", [some (Val.num 4), none])]

/-- Two CleanFeatures states differing only in their fit-time statistics. -/
def cfSt1 : CleanFeaturesState :=
  { department_col := "d", date_col := "date", meteo_group_means := []
    cols_to_handle := ["i"], department_medians := [] }

def cfSt2 : CleanFeaturesState :=
  { department_col := "d", date_col := "date"
    meteo_group_means := [((Val.str "x", 1), some 5)]
    cols_to_handle := ["i"], department_medians := [("i", [(Val.str "x", some 9)])] }

/-- CleanFeatures fit fixture for C10. -/
def cfX10 : Frame Val :=
  [("date", [some (Val.str "2020-05-01")]), ("d", [some (Val.str "A")]),
   ("i", [some (Val.str "7")]), (meteoName, [some (Val.num 1)])]

/-- The state `PartialStandardScaler.fit` learns on `pssX1`. -/
def pssSt0 : PSSState :=
  { columns := ["a"], meanV := [("a", some 2)], varV := [("a", some 1)]
    with_mean := true, with_std := true }

/-- A table holding the recorded column `a` and an untouched column `x`. -/
def dnrW : Frame Val := [("a", [some (Val.num 1)]), ("x", [none])]

/-- Altitude transform table for the C2 witness. -/
def altW : Frame ℚ := [("a", [some 5]), ("b", [some 5])]

deriving instance DecidableEq for Except


/-! ## Frame lemmas -/

namespace Frame

variable {α : Type u}

theorem lookupCol_mapCol_self (c : String) (f : List (Option α) → List (Option α))
    (X : Frame α) : lookupCol c (mapCol c f X) = (lookupCol c X).map f := by
  induction X with
  | nil => rfl
  | cons e t ih =>
    by_cases h : e.1 = c
    · simp [mapCol, lookupCol, h]
    · simp [mapCol, lookupCol, h, ih]

theorem lookupCol_mapCol_ne (c n : String) (h : c ≠ n)
    (f : List (Option α) → List (Option α)) (X : Frame α) :
    lookupCol n (mapCol c f X) = lookupCol n X := by
  induction X with
  | nil => rfl
  | cons e t ih =>
    by_cases hn : e.1 = n
    · have he : ¬ e.1 = c := by rw [hn]; exact fun hh => h hh.symm
      simp [mapCol, lookupCol, hn, he, Ne.symm h]
    · simp [mapCol, lookupCol, hn, ih]

theorem lookupCol_mapCells (f : Option α → Option α) (n : String) (X : Frame α) :
    lookupCol n (mapCells f X) = (lookupCol n X).map (List.map f) := by
  induction X with
  | nil => rfl
  | cons e t ih =>
    by_cases h : e.1 = n
    · simp [mapCells, lookupCol, h]
    · simp [mapCells, lookupCol, h, ih]

theorem hasCol_eq_isSome (c : String) (X : Frame α) :
    hasCol c X = (lookupCol c X).isSome := by
  induction X with
  | nil => rfl
  | cons e t ih =>
    by_cases h : e.1 = c
    · simp [hasCol, lookupCol, h]
    · simp [hasCol, lookupCol, h, ih]

theorem lookupCol_append (n : String) (X Y : Frame α) :
    lookupCol n (X ++ Y) = (lookupCol n X).elim (lookupCol n Y) some := by
  induction X with
  | nil => simp [lookupCol]
  | cons e t ih =>
    by_cases h : e.1 = n
    · simp [lookupCol, h]
    · simp [lookupCol, h, ih]

theorem lookupCol_setCol_self (c : String) (col : List (Option α)) (X : Frame α) :
    lookupCol c (setCol c col X) = some col := by
  unfold setCol
  by_cases h : hasCol c X = true
  · rw [if_pos h, lookupCol_mapCol_self]
    have hs := hasCol_eq_isSome c X
    rw [h] at hs
    obtain ⟨v, hv⟩ := Option.isSome_iff_exists.mp hs.symm
    simp [hv]
  · rw [if_neg h, lookupCol_append]
    have hs := hasCol_eq_isSome c X
    have hnone : lookupCol c X = none := by
      rw [hasCol_eq_isSome] at h
      exact Option.not_isSome_iff_eq_none.mp (by simpa using h)
    simp [hnone, lookupCol]

theorem lookupCol_setCol_ne (c n : String) (h : c ≠ n) (col : List (Option α)) (X : Frame α) :
    lookupCol n (setCol c col X) = lookupCol n X := by
  unfold setCol
  by_cases hc : hasCol c X = true
  · rw [if_pos hc, lookupCol_mapCol_ne c n h]
  · rw [if_neg hc, lookupCol_append]
    cases hx : lookupCol n X with
    | none => simp [lookupCol, h]
    | some v => simp

theorem lookupCol_dropCol_self (c : String) (X : Frame α) :
    lookupCol c (dropCol c X) = none := by
  induction X with
  | nil => rfl
  | cons e t ih =>
    by_cases h : e.1 = c
    · simp [dropCol, h, ih]
    · simp [dropCol, lookupCol, h, ih]

theorem lookupCol_dropCol_ne (c n : String) (h : c ≠ n) (X : Frame α) :
    lookupCol n (dropCol c X) = lookupCol n X := by
  induction X with
  | nil => rfl
  | cons e t ih =>
    by_cases he : e.1 = c
    · have hen : ¬ e.1 = n := by rw [he]; exact h
      simp [dropCol, lookupCol, he, hen, ih, h]
    · by_cases hn : e.1 = n
      · simp [dropCol, lookupCol, he, hn, Ne.symm h]
      · simp [dropCol, lookupCol, he, hn, ih, Ne.symm h]

theorem lookupCol_dropCols (cs : List String) (n : String) (X : Frame α) :
    lookupCol n (dropCols cs X) = if n ∈ cs then none else lookupCol n X := by
  induction cs generalizing X with
  | nil => simp [dropCols]
  | cons c t ih =>
    show lookupCol n (dropCols t (dropCol c X)) = _
    by_cases h : n = c
    · subst h
      rw [ih]
      by_cases ht : n ∈ t
      · simp [ht]
      · simp [ht, lookupCol_dropCol_self]
    · rw [ih, lookupCol_dropCol_ne c n (fun hc => h hc.symm)]
      by_cases ht : n ∈ t
      · simp [ht]
      · simp [ht, h]

theorem hasCol_mapCol (c n : String) (f : List (Option α) → List (Option α)) (X : Frame α) :
    hasCol n (mapCol c f X) = hasCol n X := by
  induction X with
  | nil => rfl
  | cons e t ih =>
    by_cases he : e.1 = c
    · simp [mapCol, hasCol, he, ih]
    · simp [mapCol, hasCol, he, ih]

theorem hasCol_setCol_of (c n : String) (col : List (Option α)) (X : Frame α)
    (h : hasCol n X = true) : hasCol n (setCol c col X) = true := by
  by_cases hcn : c = n
  · subst hcn
    rw [hasCol_eq_isSome, lookupCol_setCol_self]; rfl
  · rw [hasCol_eq_isSome, lookupCol_setCol_ne c n hcn, ← hasCol_eq_isSome]; exact h

theorem hasCol_setCol_self (c : String) (col : List (Option α)) (X : Frame α) :
    hasCol c (setCol c col X) = true := by
  rw [hasCol_eq_isSome, lookupCol_setCol_self]; rfl

end Frame

/-! ## Helper lemmas: `idxMap`, `alookup`, statistics -/

theorem idxMap_getElem? {α β : Type u} (f : ℕ → Option α → Option β) (k : ℕ)
    (l : List (Option α)) (i : ℕ) :
    (idxMap f k l)[i]? = (l[i]?).map (fun c => f (k + i) c) := by
  induction l generalizing k i with
  | nil => simp [idxMap]
  | cons c t ih =>
    cases i with
    | zero => simp [idxMap]
    | succ j =>
      simp only [idxMap, List.getElem?_cons_succ, ih (k + 1) j]
      have : k + 1 + j = k + (j + 1) := by omega
      rw [this]

theorem alookup_map_self {β : Type u} (g : String → β) (cols : List String) (c : String) :
    alookup (cols.map (fun x => (x, g x))) c = if c ∈ cols then some (g c) else none := by
  induction cols with
  | nil => simp [alookup]
  | cons d t ih =>
    by_cases h : d = c
    · subst h; simp [alookup]
    · have h2 : ¬ c = d := fun hh => h hh.symm
      simp [alookup, h, ih, List.mem_cons, h2]

theorem lookupCol_eq_some_iff_mem {α : Type u} (c : String) (col : List (Option α))
    (T : Frame α) (hnd : (Frame.names T).Nodup) :
    Frame.lookupCol c T = some col ↔ (c, col) ∈ T := by
  induction T with
  | nil => simp [Frame.lookupCol]
  | cons e t ih =>
    have hnd' : (Frame.names t).Nodup := (List.nodup_cons.mp hnd).2
    have hhead : e.1 ∉ Frame.names t := (List.nodup_cons.mp hnd).1
    by_cases h : e.1 = c
    · subst h
      have hlook : Frame.lookupCol e.1 (e :: t) = some e.2 := by
        simp [Frame.lookupCol]
      rw [hlook]
      constructor
      · intro hcol
        exact List.mem_cons.mpr (Or.inl (by rw [← Option.some_inj.mp hcol]))
      · intro hmem
        rcases List.mem_cons.mp hmem with hh | ht
        · have hce : col = e.2 := congrArg Prod.snd hh
          rw [hce]
        · exact absurd (List.mem_map_of_mem Prod.fst ht) hhead
    · simp only [Frame.lookupCol, if_neg h, List.mem_cons]
      rw [ih hnd']
      constructor
      · exact Or.inr
      · rintro (hh | ht)
        · exact absurd (congrArg Prod.fst hh).symm h
        · exact ht

theorem qmaxO_ne_none (l : List ℚ) (hl : l ≠ []) : qmaxO l ≠ none := by
  cases l with
  | nil => exact absurd rfl hl
  | cons a t => unfold qmaxO; cases qmaxO t <;> simp

theorem qmaxO_cons_none (a : ℚ) (t : List ℚ) (ht : qmaxO t = none) :
    qmaxO (a :: t) = some a := by
  unfold qmaxO; rw [ht]

theorem qmaxO_cons_some (a mt : ℚ) (t : List ℚ) (ht : qmaxO t = some mt) :
    qmaxO (a :: t) = some (max a mt) := by
  unfold qmaxO; rw [ht]

theorem qmaxO_le (l : List ℚ) (m : ℚ) (h : qmaxO l = some m) : ∀ x ∈ l, x ≤ m := by
  induction l generalizing m with
  | nil => simp [qmaxO] at h
  | cons a t ih =>
    intro x hx
    rcases List.mem_cons.mp hx with rfl | hxt
    · cases ht : qmaxO t with
      | none =>
        rw [qmaxO_cons_none x t ht] at h
        exact le_of_eq (Option.some_inj.mp h)
      | some mt =>
        rw [qmaxO_cons_some x mt t ht] at h
        have := le_max_left x mt
        rwa [Option.some_inj.mp h] at this
    · cases ht : qmaxO t with
      | none =>
        cases t with
        | nil => exact absurd hxt (List.not_mem_nil x)
        | cons b s => exact absurd ht (qmaxO_ne_none (b :: s) (by simp))
      | some mt =>
        rw [qmaxO_cons_some a mt t ht] at h
        have h2 := le_max_right a mt
        rw [Option.some_inj.mp h] at h2
        exact le_trans (ih mt ht x hxt) h2

theorem qsum_le_length_mul (l : List ℚ) (m : ℚ) (h : ∀ x ∈ l, x ≤ m) :
    qsum l ≤ l.length * m := by
  induction l with
  | nil => simp [qsum]
  | cons a t ih =>
    have ha : a ≤ m := h a (List.mem_cons_self a t)
    have ht : qsum t ≤ t.length * m := ih (fun x hx => h x (List.mem_cons_of_mem a hx))
    simp only [qsum, List.length_cons]
    push_cast
    nlinarith

theorem qmean_le_of_qmaxO (l : List ℚ) (m : ℚ) (h : qmaxO l = some m) :
    ∃ μ : ℚ, qmean l = some μ ∧ μ ≤ m := by
  have hne : l ≠ [] := by
    intro hnil
    subst hnil
    simp [qmaxO] at h
  refine ⟨qsum l / l.length, by simp [qmean, hne], ?_⟩
  have hpos : (0 : ℚ) < l.length := by
    have := List.length_pos.mpr hne
    exact_mod_cast this
  rw [div_le_iff₀ hpos]
  have := qsum_le_length_mul l m (qmaxO_le l m h)
  linarith

theorem mem_sortedInsert (x y : ℚ) (l : List ℚ) :
    y ∈ sortedInsert x l ↔ y = x ∨ y ∈ l := by
  induction l with
  | nil => simp [sortedInsert]
  | cons a t ih =>
    unfold sortedInsert
    by_cases h : x ≤ a
    · simp [h, List.mem_cons]
    · simp only [if_neg h, List.mem_cons, ih]
      tauto

theorem mem_qsort (y : ℚ) (l : List ℚ) : y ∈ qsort l ↔ y ∈ l := by
  induction l with
  | nil => simp [qsort]
  | cons a t ih =>
    show y ∈ sortedInsert a (qsort t) ↔ _
    rw [mem_sortedInsert, ih]
    simp [List.mem_cons]

theorem modesOf_subset (x : ℚ) (l : List ℚ) (h : x ∈ modesOf l) : x ∈ l := by
  unfold modesOf at h
  have h1 := (List.mem_filter.mp h).1
  rw [mem_qsort] at h1
  exact List.mem_dedup.mp h1

theorem maskedVals_le (col : List (Option ℚ)) (m : ℚ) (x : ℚ)
    (h : x ∈ maskedVals col (some m)) : x ≤ m := by
  unfold maskedVals at h
  have h2 := (List.mem_filter.mp h).2
  simp only [Option.elim, Bool.and_eq_true, decide_eq_true_eq] at h2
  exact h2.2

/-- Claim C1: parameters learned at fit time by the partial standardizer and
the altitude cleaner (mean and variance-determined standard deviation for
the standardizer; max, most-frequent and mean for the altitude cleaner) are
left unchanged by every subsequent transform call: both `transform` bodies
read their statistics and assign no attribute, so after transforming any two
tables the state still equals the state produced by `fit`. -/
theorem frozen_fit_parameters (aCols : List String) (T0 T1 T2 : Frame ℚ)
    (sp : ColsSpec) (wm ws : Bool) (S0 S1 S2 : Frame Val) (st0 : PSSState)
    (_hfit : PartialStandardScaler.fit sp wm ws S0 = Except.ok st0) :
    (AltitudeTrans.transform (AltitudeTrans.transform (AltitudeTrans.fit aCols T0) T1).1 T2).1
      = AltitudeTrans.fit aCols T0
    ∧ (PartialStandardScaler.transform (PartialStandardScaler.transform st0 S1).1 S2).1 = st0 :=
  ⟨rfl, rfl⟩

/-- Witness for C1 at a concrete fitted standardizer and altitude cleaner. -/
theorem pss_fit_eval :
    PartialStandardScaler.fit (ColsSpec.listC ["a"]) true true pssX1 = Except.ok pssSt0 := by
  have h1 : numValsOf (Frame.getColD "a" [("a", [some (Val.num 1), some (Val.num 3)])])
      = [1, 3] := by decide
  have h2 : qmean [(1 : ℚ), 3] = some 2 := by
    rw [qmean, if_neg (by simp)]
    norm_num [qsum]
  have h3 : qvar [(1 : ℚ), 3] = some 1 := by
    rw [qvar, if_neg (by simp)]
    norm_num [qsum]
  norm_num [PartialStandardScaler.fit, resolveCols, frameNumeric, colNumeric, Frame.hasCol,
    pssX1, pssSt0, h1, h2, h3]

/-- Witness for C1 at a concrete fitted standardizer and altitude cleaner. -/
theorem frozen_fit_parameters_witness :
    (AltitudeTrans.transform (AltitudeTrans.transform (AltitudeTrans.fit ["a"] altT0) altX0).1
        altX0).1 = AltitudeTrans.fit ["a"] altT0
    ∧ (PartialStandardScaler.transform (PartialStandardScaler.transform pssSt0 pssX1).1
        pssX1).1 = pssSt0 :=
  frozen_fit_parameters ["a"] altT0 altX0 altX0 (ColsSpec.listC ["a"]) true true
    pssX1 pssX1 pssX1 pssSt0 pss_fit_eval

/-- Claim C3, counterexample: with `c` as the only designated column,
`transform` also rewrites the missing entry of the undesignated column `d`
to the sentinel, so `d` is not left unchanged. -/
theorem missingCat_c3_counterexample :
    Frame.lookupCol "d" (MissingCat.transform (MissingCat.fit ["c"]) mcX0)
      = some [some (Val.str "missing"), some (Val.num 1)]
    ∧ Frame.lookupCol "d" mcX0 = some [none, some (Val.num 1)]
    ∧ some [some (Val.str "missing"), some (Val.num 1)]
        ≠ some [(none : Option Val), some (Val.num 1)] := by
  decide

/-- Claim C3 (amended): `MissingCat.transform` replaces every missing entry
of every column — designated or not — with the sentinel category
`"missing"`, and keeps every present entry; the designated column list does
not restrict the fill. -/
theorem missingCat_fills_every_column (st : MissingCatState) (X : Frame Val) (n : String) :
    Frame.lookupCol n (MissingCat.transform st X)
      = (Frame.lookupCol n X).map
          (fun col => col.map (fun c => some (c.getD (Val.str "missing")))) :=
  Frame.lookupCol_mapCells _ n X

theorem dnr_fit_eval : DropNaRate.fit (1 / 2) dnrT0 = ⟨1 / 2, ["a"]⟩ := by
  norm_num [DropNaRate.fit, dnrT0, naRate]

/-- Claim C4, counterexample: the fitted dropper records `a`, and
transforming a table without `a` raises (`X.drop` has no
`errors="ignore"`), modelled by `none`. -/
theorem dropNaRate_c4_counterexample :
    DropNaRate.transform (DropNaRate.fit (1 / 2) dnrT0) dnrX0 = none
    ∧ (DropNaRate.fit (1 / 2) dnrT0).cols_to_drop = ["a"]
    ∧ Frame.hasCol "a" dnrX0 = false := by
  rw [dnr_fit_eval]
  refine ⟨?_, rfl, by decide⟩
  simp [DropNaRate.transform, dnrX0, Frame.hasCol]

/-- Claim C4 (amended): when some recorded column is absent the transform
raises (modelled `none`); only when every recorded column is present does it
drop exactly the recorded columns and keep all others unchanged. -/
theorem dropNaRate_drop_raises_on_absent (st : DropNaRateState) (X : Frame Val) :
    ((∃ c ∈ st.cols_to_drop, Frame.hasCol c X = false) → DropNaRate.transform st X = none)
    ∧ ((∀ c ∈ st.cols_to_drop, Frame.hasCol c X = true) →
        ∃ Y, DropNaRate.transform st X = some Y
          ∧ (∀ c ∈ st.cols_to_drop, Frame.hasCol c Y = false)
          ∧ (∀ n, n ∉ st.cols_to_drop → Frame.lookupCol n Y = Frame.lookupCol n X)) := by
  constructor
  · rintro ⟨c, hc, hfalse⟩
    unfold DropNaRate.transform
    rw [if_neg]
    intro hall
    rw [List.all_eq_true] at hall
    have hct := hall c hc
    rw [hfalse] at hct
    exact Bool.false_ne_true hct
  · intro hall
    refine ⟨Frame.dropCols st.cols_to_drop X, ?_, ?_, ?_⟩
    · unfold DropNaRate.transform
      rw [if_pos (List.all_eq_true.mpr hall)]
    · intro c hc
      rw [Frame.hasCol_eq_isSome, Frame.lookupCol_dropCols]
      simp [hc]
    · intro n hn
      rw [Frame.lookupCol_dropCols]
      simp [hn]

/-- Witness for C4 (amended) on a table containing the recorded column. -/
theorem dropNaRate_drop_raises_on_absent_witness :
    ∃ Y, DropNaRate.transform (DropNaRate.fit (1 / 2) dnrT0) dnrW = some Y
      ∧ Frame.hasCol "a" Y = false
      ∧ Frame.lookupCol "x" Y = Frame.lookupCol "x" dnrW := by
  obtain ⟨Y, h1, h2, h3⟩ :=
    (dropNaRate_drop_raises_on_absent (DropNaRate.fit (1 / 2) dnrT0) dnrW).2
      (by rw [dnr_fit_eval]; decide)
  exact ⟨Y, h1, h2 "a" (by rw [dnr_fit_eval]; decide), h3 "x" (by rw [dnr_fit_eval]; decide)⟩

/-- Claim C5, counterexample: the selected column `a` is numeric, yet `fit`
fails with the non-numeric assertion because the undesignated column `b`
holds strings — the assertion scans the whole table, not the selected set. -/
theorem pss_c5_counterexample :
    PartialStandardScaler.fit (ColsSpec.listC ["a"]) true true pssX0 = Except.error assertMsg
    ∧ colNumeric (Frame.getColD "a" pssX0) = true := by
  decide

/-- Claim C5 (amended): `PartialStandardScaler.fit` fails with the
"non-numeric column" assertion if and only if some column of the entire
table is non-numeric; a non-numeric column outside the selected set also
triggers it. -/
theorem pss_assert_checks_whole_table (cols : ColsSpec) (wm ws : Bool) (X : Frame Val) :
    PartialStandardScaler.fit cols wm ws X = Except.error assertMsg
      ↔ ∃ p ∈ X, colNumeric p.2 = false := by
  cases hf : frameNumeric X with
  | false =>
    unfold PartialStandardScaler.fit
    rw [if_neg (by rw [hf]; exact Bool.false_ne_true)]
    constructor
    · intro _
      by_contra hno
      push_neg at hno
      have hall : frameNumeric X = true := by
        unfold frameNumeric
        rw [List.all_eq_true]
        intro e he
        cases hcn : colNumeric e.2 with
        | false => exact absurd hcn (hno e he)
        | true => rfl
      rw [hall] at hf
      exact Bool.noConfusion hf
    · intro _
      rfl
  | true =>
    unfold PartialStandardScaler.fit
    rw [if_pos hf]
    constructor
    · intro he
      exfalso
      by_cases hk : ((resolveCols cols X).all (fun c => Frame.hasCol c X)) = true
      · rw [if_pos hk] at he
        exact Except.noConfusion he
      · rw [if_neg hk] at he
        have h2 := Except.error.inj he
        have : ("KeyError" : String) ≠ assertMsg := by decide
        exact this h2
    · rintro ⟨p, hp, hbad⟩
      have hall := List.all_eq_true.mp hf p hp
      rw [hbad] at hall
      exact absurd hall Bool.false_ne_true

/-- Claim C7: `DropNaRate.fit` records exactly the columns whose missing
fraction strictly exceeds the rate, and on any table containing all recorded
columns the transform output contains none of them. -/
theorem dropNaRate_fit_records_exceeders (r : ℚ) (T : Frame Val)
    (hnd : (Frame.names T).Nodup) :
    (∀ c : String, c ∈ (DropNaRate.fit r T).cols_to_drop ↔
       ∃ col, Frame.lookupCol c T = some col ∧ r < naRate col)
    ∧ ∀ X : Frame Val, (∀ c ∈ (DropNaRate.fit r T).cols_to_drop, Frame.hasCol c X = true) →
        ∃ Y, DropNaRate.transform (DropNaRate.fit r T) X = some Y
          ∧ ∀ c ∈ (DropNaRate.fit r T).cols_to_drop, Frame.hasCol c Y = false := by
  constructor
  · intro c
    show c ∈ (T.filter _).map Prod.fst ↔ _
    constructor
    · intro h
      rw [List.mem_map] at h
      obtain ⟨e, he, hfst⟩ := h
      rw [List.mem_filter] at he
      refine ⟨e.2, ?_, of_decide_eq_true he.2⟩
      rw [lookupCol_eq_some_iff_mem _ _ _ hnd, ← hfst]
      exact he.1
    · rintro ⟨col, hlook, hrate⟩
      rw [lookupCol_eq_some_iff_mem _ _ _ hnd] at hlook
      rw [List.mem_map]
      exact ⟨(c, col), List.mem_filter.mpr ⟨hlook, decide_eq_true hrate⟩, rfl⟩
  · intro X hall
    refine ⟨Frame.dropCols (DropNaRate.fit r T).cols_to_drop X, ?_, ?_⟩
    · unfold DropNaRate.transform
      rw [if_pos (List.all_eq_true.mpr hall)]
    · intro c hc
      rw [Frame.hasCol_eq_isSome, Frame.lookupCol_dropCols]
      simp [hc]

/-- Witness for C7: the 80%-missing column `a` with threshold 1/2 is in the
fit-time drop set and absent from the transformed output. -/
theorem dropNaRate_fit_records_exceeders_witness :
    "a" ∈ (DropNaRate.fit (1 / 2) dnrT0).cols_to_drop
    ∧ ∃ Y, DropNaRate.transform (DropNaRate.fit (1 / 2) dnrT0) dnrT0 = some Y
        ∧ Frame.hasCol "a" Y = false := by
  have h := dropNaRate_fit_records_exceeders (1 / 2) dnrT0 (by decide)
  have hmem : "a" ∈ (DropNaRate.fit (1 / 2) dnrT0).cols_to_drop :=
    (h.1 "a").2 ⟨[none, none, none, none, some (Val.num 1)], by decide,
      by norm_num [naRate]⟩
  obtain ⟨Y, h1, h2⟩ := h.2 dnrT0 (by rw [dnr_fit_eval]; decide)
  exact ⟨hmem, Y, h1, h2 "a" hmem⟩

/-! ## `AltitudeTrans` lemmas (claims C2 and C9) -/

theorem fillAll_none (X : Frame ℚ) : fillAll none X = X := rfl

theorem fillAll_some (q : ℚ) (X : Frame ℚ) :
    fillAll (some q) X = Frame.mapCells (fun cl => some (cl.getD q)) X := rfl

theorem alt_fit_columns (cols : List String) (T : Frame ℚ) :
    (AltitudeTrans.fit cols T).columns = cols := rfl

theorem alt_fit_max (cols : List String) (T : Frame ℚ) :
    (AltitudeTrans.fit cols T).max_altitude
      = cols.map (fun c => (c, qmaxO (qvals (Frame.getColD c T)))) := rfl

theorem alt_fit_mean (cols : List String) (T : Frame ℚ) :
    (AltitudeTrans.fit cols T).mean
      = cols.map (fun c => (c, qmean (qvals (Frame.getColD c T)))) := rfl

theorem alt_fit_mf (cols : List String) (T : Frame ℚ) :
    (AltitudeTrans.fit cols T).most_frequent
      = cols.map (fun c =>
          (c, modesOf (maskedVals (Frame.getColD c T) (qmaxO (qvals (Frame.getColD c T)))))) :=
  rfl

theorem altitude_fit_state_facts (cols : List String) (T : Frame ℚ) (c : String) (m : ℚ)
    (hm : alookup (AltitudeTrans.fit cols T).max_altitude c = some (some m)) :
    c ∈ cols
    ∧ (∃ μ, alookup (AltitudeTrans.fit cols T).mean c = some (some μ) ∧ μ ≤ m)
    ∧ (∃ ms, alookup (AltitudeTrans.fit cols T).most_frequent c = some ms
        ∧ ∀ x ∈ ms, x ≤ m) := by
  have hmax := hm
  rw [alt_fit_max, alookup_map_self] at hmax
  by_cases hc : c ∈ cols
  · rw [if_pos hc] at hmax
    have hqm : qmaxO (qvals (Frame.getColD c T)) = some m := Option.some_inj.mp hmax
    refine ⟨hc, ?_, ?_⟩
    · obtain ⟨μ, hμ1, hμ2⟩ := qmean_le_of_qmaxO _ m hqm
      refine ⟨μ, ?_, hμ2⟩
      rw [alt_fit_mean, alookup_map_self, if_pos hc, hμ1]
    · refine ⟨modesOf (maskedVals (Frame.getColD c T) (qmaxO (qvals (Frame.getColD c T)))),
        ?_, ?_⟩
      · rw [alt_fit_mf, alookup_map_self, if_pos hc]
      · intro x hx
        rw [hqm] at hx
        exact maskedVals_le _ m x (modesOf_subset x _ hx)
  · rw [if_neg hc] at hmax
    exact Option.noConfusion hmax

theorem altitude_step_self_bound (st : AltitudeTransState) (Y : Frame ℚ) (c : String)
    (m μ : ℚ) (ms : List ℚ)
    (hmax : alookup st.max_altitude c = some (some m))
    (hmean : alookup st.mean c = some (some μ)) (hμle : μ ≤ m)
    (hmodes : alookup st.most_frequent c = some ms) (hms : ∀ x ∈ ms, x ≤ m) :
    ∀ col, Frame.lookupCol c (AltitudeTrans.stepCol st Y c) = some col →
      ∀ (i : ℕ) (cell : Option ℚ), col[i]? = some cell → ∃ v, cell = some v ∧ v ≤ m := by
  intro col hcol i cell hcell
  unfold AltitudeTrans.stepCol at hcol
  rw [hmax, hmean, hmodes] at hcol
  simp only [Option.getD_some] at hcol
  rw [fillAll_some, Frame.lookupCol_mapCells, Frame.lookupCol_mapCol_self,
    Frame.lookupCol_mapCol_self] at hcol
  cases hY : Frame.lookupCol c Y with
  | none => rw [hY] at hcol; exact Option.noConfusion hcol
  | some col0 =>
    rw [hY] at hcol
    simp only [Option.map_some'] at hcol
    injection hcol with hcol
    subst hcol
    rw [List.getElem?_map] at hcell
    cases h2 : (negReplaceCol ms (List.map (clipCell (some m)) col0))[i]? with
    | none => rw [h2] at hcell; exact Option.noConfusion hcell
    | some cell2 =>
      rw [h2] at hcell
      simp only [Option.map_some'] at hcell
      injection hcell with hcell
      refine ⟨cell2.getD μ, hcell.symm, ?_⟩
      unfold negReplaceCol at h2
      rw [idxMap_getElem?, List.getElem?_map] at h2
      cases h0 : col0[i]? with
      | none => rw [h0] at h2; exact Option.noConfusion h2
      | some cell0 =>
        rw [h0] at h2
        simp only [Option.map_some'] at h2
        injection h2 with h2
        cases cell0 with
        | none =>
          rw [show clipCell (some m) none = none from rfl] at h2
          rw [show negCell ms (0 + i) none = none from rfl] at h2
          rw [← h2]
          simpa using hμle
        | some v0 =>
          rw [show clipCell (some m) (some v0) = some (min v0 m) from rfl] at h2
          rw [show negCell ms (0 + i) (some (min v0 m))
              = if min v0 m < 0 then ms[0 + i]? else some (min v0 m) from rfl] at h2
          by_cases hneg : min v0 m < 0
          · rw [if_pos hneg] at h2
            cases hms2 : ms[0 + i]? with
            | none =>
              rw [hms2] at h2
              rw [← h2]
              simpa using hμle
            | some w =>
              rw [hms2] at h2
              rw [← h2]
              simp only [Option.getD_some]
              exact hms w (List.getElem?_mem hms2)
          · rw [if_neg hneg] at h2
            rw [← h2]
            simp only [Option.getD_some]
            exact min_le_right v0 m

theorem altitude_step_other_bound (st : AltitudeTransState) (Y : Frame ℚ) (c j : String)
    (hj : j ≠ c) (m : ℚ)
    (hinv : ∀ col, Frame.lookupCol c Y = some col →
      ∀ (i : ℕ) (cell : Option ℚ), col[i]? = some cell → ∃ v, cell = some v ∧ v ≤ m) :
    ∀ col, Frame.lookupCol c (AltitudeTrans.stepCol st Y j) = some col →
      ∀ (i : ℕ) (cell : Option ℚ), col[i]? = some cell → ∃ v, cell = some v ∧ v ≤ m := by
  intro col hcol i cell hcell
  unfold AltitudeTrans.stepCol at hcol
  cases hval : (alookup st.mean j).getD none with
  | none =>
    rw [hval, fillAll_none, Frame.lookupCol_mapCol_ne j c hj,
      Frame.lookupCol_mapCol_ne j c hj] at hcol
    exact hinv col hcol i cell hcell
  | some q =>
    rw [hval, fillAll_some, Frame.lookupCol_mapCells, Frame.lookupCol_mapCol_ne j c hj,
      Frame.lookupCol_mapCol_ne j c hj] at hcol
    cases hY : Frame.lookupCol c Y with
    | none => rw [hY] at hcol; exact Option.noConfusion hcol
    | some col0 =>
      rw [hY] at hcol
      simp only [Option.map_some'] at hcol
      injection hcol with hcol
      subst hcol
      rw [List.getElem?_map] at hcell
      cases h0 : col0[i]? with
      | none => rw [h0] at hcell; exact Option.noConfusion hcell
      | some cell0 =>
        rw [h0] at hcell
        simp only [Option.map_some'] at hcell
        injection hcell with hcell
        obtain ⟨v, hv0, hvle⟩ := hinv col0 hY i cell0 h0
        subst hv0
        rw [← hcell]
        exact ⟨v, by simp, hvle⟩

theorem altitude_fold_bound (st : AltitudeTransState) (c : String) (m μ : ℚ) (ms : List ℚ)
    (hmax : alookup st.max_altitude c = some (some m))
    (hmean : alookup st.mean c = some (some μ)) (hμle : μ ≤ m)
    (hmodes : alookup st.most_frequent c = some ms) (hms : ∀ x ∈ ms, x ≤ m) :
    ∀ (l : List String) (Y : Frame ℚ),
      (c ∈ l ∨ ∀ col, Frame.lookupCol c Y = some col →
        ∀ (i : ℕ) (cell : Option ℚ), col[i]? = some cell → ∃ v, cell = some v ∧ v ≤ m) →
      ∀ col, Frame.lookupCol c (l.foldl (AltitudeTrans.stepCol st) Y) = some col →
        ∀ (i : ℕ) (cell : Option ℚ), col[i]? = some cell → ∃ v, cell = some v ∧ v ≤ m := by
  intro l
  induction l with
  | nil =>
    intro Y h
    rcases h with h | h
    · exact absurd h (List.not_mem_nil c)
    · exact h
  | cons j t ih =>
    intro Y h
    rw [List.foldl_cons]
    by_cases hjc : j = c
    · subst hjc
      exact ih _ (Or.inr (altitude_step_self_bound st Y j m μ ms hmax hmean hμle hmodes hms))
    · rcases h with h | h
      · rcases List.mem_cons.mp h with hcj | ht
        · exact absurd hcj.symm hjc
        · exact ih _ (Or.inl ht)
      · exact ih _ (Or.inr (altitude_step_other_bound st Y c j hjc m h))

theorem alt_fit_eval :
    AltitudeTrans.fit ["a", "b"] altT0
      = ⟨["a", "b"], [("a", some 2), ("b", some 7)], [("a", [2]), ("b", [5, 7])],
         [("a", some (-4)), ("b", some 6)]⟩ := by
  have hqa : qvals (Frame.getColD "a" altT0) = [-10, 2] := by decide
  have hqb : qvals (Frame.getColD "b" altT0) = [5, 7] := by decide
  have hma : qmaxO [(-10 : ℚ), 2] = some 2 := by decide
  have hmb : qmaxO [(5 : ℚ), 7] = some 7 := by decide
  have hka : maskedVals (Frame.getColD "a" altT0) (some 2) = [2] := by decide
  have hkb : maskedVals (Frame.getColD "b" altT0) (some 7) = [5, 7] := by decide
  have hoa : modesOf [(2 : ℚ)] = [2] := by decide
  have hob : modesOf [(5 : ℚ), 7] = [5, 7] := by decide
  have hea : qmean [(-10 : ℚ), 2] = some (-4) := by
    rw [qmean, if_neg (by simp)]
    norm_num [qsum]
  have heb : qmean [(5 : ℚ), 7] = some 6 := by
    rw [qmean, if_neg (by simp)]
    norm_num [qsum]
  unfold AltitudeTrans.fit
  simp only [List.map_cons, List.map_nil]
  rw [hqa, hqb, hma, hmb, hka, hkb, hoa, hob, hea, heb]

/-- Claim C2, counterexample: fitted on `altT0` (max 2/7, modes `[2]`/`[5,7]`,
means `-4`/`6` for columns `a`/`b`), transforming the all-missing `altX0`
leaves `a = -4` — a negative altitude — and fills `b`'s missing entry with
`5`, not with `b`'s own learned mean `6` (it received `a`'s mean `-4` from
the whole-table fill, which was then negative-replaced by `b`'s mode). -/
theorem altitudeTrans_c2_counterexample :
    Frame.lookupCol "a" (AltitudeTrans.transform (AltitudeTrans.fit ["a", "b"] altT0) altX0).2
      = some [some (-4)]
    ∧ Frame.lookupCol "b" (AltitudeTrans.transform (AltitudeTrans.fit ["a", "b"] altT0) altX0).2
      = some [some 5]
    ∧ alookup (AltitudeTrans.fit ["a", "b"] altT0).mean "b" = some (some 6)
    ∧ (-4 : ℚ) < 0 ∧ (5 : ℚ) ≠ 6 := by
  rw [alt_fit_eval]
  exact ⟨by decide, by decide, by decide, by decide, by decide⟩

/-- Claim C2 (amended): the transform clips at the learned max, replaces
negatives by the row-aligned learned modes, and then fills the whole table
with the current column's learned mean; for a fitted instance every present
post-transform value of a designated column with learned max `m` is at most
`m`, but negative values can remain (a negative learned mean is filled in
after the negative-replacement step), and a later designated column's
missing entries receive an earlier column's mean before their own clip and
replacement rather than their own mean. -/
theorem altitudeTrans_clip_bound (cols : List String) (T X : Frame ℚ) (c : String) (m : ℚ)
    (hm : alookup (AltitudeTrans.fit cols T).max_altitude c = some (some m)) (i : ℕ) (v : ℚ)
    (hv : Frame.getCell c i (AltitudeTrans.transform (AltitudeTrans.fit cols T) X).2 = some v) :
    v ≤ m := by
  obtain ⟨hc, ⟨μ, hmean, hμle⟩, ⟨ms, hmodes, hms⟩⟩ := altitude_fit_state_facts cols T c m hm
  have hfold := altitude_fold_bound (AltitudeTrans.fit cols T) c m μ ms hm hmean hμle hmodes hms
    cols X (Or.inl hc)
  have htab : (AltitudeTrans.transform (AltitudeTrans.fit cols T) X).2
      = cols.foldl (AltitudeTrans.stepCol (AltitudeTrans.fit cols T)) X := rfl
  rw [htab] at hv
  unfold Frame.getCell Frame.getColD at hv
  cases hlook : Frame.lookupCol c
      (cols.foldl (AltitudeTrans.stepCol (AltitudeTrans.fit cols T)) X) with
  | none => rw [hlook] at hv; exact Option.noConfusion hv
  | some col =>
    rw [hlook] at hv
    simp only [Option.getD_some] at hv
    have hcell : col[i]? = some (some v) := by
      cases hci : col[i]? with
      | none => rw [hci] at hv; exact Option.noConfusion hv
      | some cell =>
        rw [hci] at hv
        cases cell with
        | none => exact Option.noConfusion hv
        | some w =>
          have hw : w = v := Option.some_inj.mp hv
          rw [hw]
    obtain ⟨w, hw, hwle⟩ := hfold col hlook i (some v) hcell
    have : v = w := Option.some_inj.mp hw
    rwa [this]

/-- Witness for C2 (amended): on `altW` the fitted cleaner caps `a`'s value
5 to the learned max 2. -/
theorem altitudeTrans_clip_bound_witness :
    Frame.getCell "a" 0 (AltitudeTrans.transform (AltitudeTrans.fit ["a", "b"] altT0) altW).2
      = some 2
    ∧ (2 : ℚ) ≤ 2 := by
  constructor
  · rw [alt_fit_eval]
    decide
  · exact altitudeTrans_clip_bound ["a", "b"] altT0 altW "a" 2
      (by rw [alt_fit_eval]; decide) 0 2 (by rw [alt_fit_eval]; decide)

theorem altitude_step_c1_fills (st : AltitudeTransState) (X : Frame ℚ) (c1 : String)
    (μ : ℚ) (hμ : alookup st.mean c1 = some (some μ)) (n : String) (i : ℕ)
    (col0 : List (Option ℚ)) (hcol : Frame.lookupCol n X = some col0)
    (hmiss : col0[i]? = some none) :
    ∃ col, Frame.lookupCol n (AltitudeTrans.stepCol st X c1) = some col
      ∧ col[i]? = some (some μ) := by
  unfold AltitudeTrans.stepCol
  rw [hμ]
  simp only [Option.getD_some]
  rw [fillAll_some, Frame.lookupCol_mapCells]
  by_cases hn : c1 = n
  · subst hn
    rw [Frame.lookupCol_mapCol_self, Frame.lookupCol_mapCol_self, hcol]
    simp only [Option.map_some']
    refine ⟨_, rfl, ?_⟩
    rw [List.getElem?_map]
    unfold negReplaceCol
    rw [idxMap_getElem?, List.getElem?_map, hmiss]
    simp [clipCell, negCell]
  · rw [Frame.lookupCol_mapCol_ne c1 n hn, Frame.lookupCol_mapCol_ne c1 n hn, hcol]
    simp only [Option.map_some']
    refine ⟨_, rfl, ?_⟩
    rw [List.getElem?_map, hmiss]
    simp

theorem altitude_fold_keeps_cell (st : AltitudeTransState) (n : String) (i : ℕ) (μ : ℚ) :
    ∀ (l : List String), n ∉ l → ∀ Y : Frame ℚ,
      (∃ col, Frame.lookupCol n Y = some col ∧ col[i]? = some (some μ)) →
      ∃ col, Frame.lookupCol n (l.foldl (AltitudeTrans.stepCol st) Y) = some col
        ∧ col[i]? = some (some μ) := by
  intro l
  induction l with
  | nil =>
    intro _ Y h
    exact h
  | cons j t ih =>
    intro hnl Y h
    have hjn : j ≠ n := fun hh => hnl (by rw [← hh]; exact List.mem_cons_self j t)
    have hnt : n ∉ t := fun hh => hnl (List.mem_cons_of_mem j hh)
    rw [List.foldl_cons]
    apply ih hnt
    obtain ⟨col, hlook, hcell⟩ := h
    unfold AltitudeTrans.stepCol
    cases hval : (alookup st.mean j).getD none with
    | none =>
      rw [fillAll_none, Frame.lookupCol_mapCol_ne j n hjn,
        Frame.lookupCol_mapCol_ne j n hjn]
      exact ⟨col, hlook, hcell⟩
    | some q =>
      rw [fillAll_some, Frame.lookupCol_mapCells, Frame.lookupCol_mapCol_ne j n hjn,
        Frame.lookupCol_mapCol_ne j n hjn, hlook]
      simp only [Option.map_some']
      refine ⟨_, rfl, ?_⟩
      rw [List.getElem?_map, hcell]
      simp

theorem alt9_fit_eval :
    AltitudeTrans.fit ["a", "b"] altT9
      = ⟨["a", "b"], [("a", some 10), ("b", some 3)], [("a", [10]), ("b", [3])],
         [("a", some 10), ("b", some 3)]⟩ := by
  have hqa : qvals (Frame.getColD "a" altT9) = [10] := by decide
  have hqb : qvals (Frame.getColD "b" altT9) = [3] := by decide
  have hma : qmaxO [(10 : ℚ)] = some 10 := by decide
  have hmb : qmaxO [(3 : ℚ)] = some 3 := by decide
  have hka : maskedVals (Frame.getColD "a" altT9) (some 10) = [10] := by decide
  have hkb : maskedVals (Frame.getColD "b" altT9) (some 3) = [3] := by decide
  have hoa : modesOf [(10 : ℚ)] = [10] := by decide
  have hob : modesOf [(3 : ℚ)] = [3] := by decide
  have hea : qmean [(10 : ℚ)] = some 10 := by
    rw [qmean, if_neg (by simp)]
    norm_num [qsum]
  have heb : qmean [(3 : ℚ)] = some 3 := by
    rw [qmean, if_neg (by simp)]
    norm_num [qsum]
  unfold AltitudeTrans.fit
  simp only [List.map_cons, List.map_nil]
  rw [hqa, hqb, hma, hmb, hka, hkb, hoa, hob, hea, heb]

/-- Claim C9, counterexample: fitted on `altT9` (first column's learned mean
is 10, second column's learned max is 3), transforming `altX9` leaves the
missing entry of the later designated column `b` at 3, not at the first
column's mean 10 — the whole-table fill put 10 there, but `b`'s own clip
then capped it at `b`'s max 3. -/
theorem altitudeTrans_c9_counterexample :
    Frame.lookupCol "b" (AltitudeTrans.transform (AltitudeTrans.fit ["a", "b"] altT9) altX9).2
      = some [some 3]
    ∧ alookup (AltitudeTrans.fit ["a", "b"] altT9).mean "a" = some (some 10)
    ∧ Frame.lookupCol "b" altX9 = some [none]
    ∧ (3 : ℚ) ≠ 10 := by
  rw [alt9_fit_eval]
  exact ⟨by decide, by decide, by decide, by decide⟩

/-- Claim C9 (amended): the final fill of the altitude cleaner is applied to
the entire table — after transform, every missing entry of every column that
is not a designated column after the first (in particular of every column
outside the designated set, and of the first designated column itself) holds
the first designated column's learned mean; missing entries of the later
designated columns also receive that mean but are then subjected to those
columns' own clip and negative-replacement steps. -/
theorem altitudeTrans_fill_whole_table (st : AltitudeTransState) (c1 : String)
    (rest : List String) (hcols : st.columns = c1 :: rest) (μ : ℚ)
    (hμ : alookup st.mean c1 = some (some μ)) (n : String) (hn : n ∉ rest)
    (X : Frame ℚ) (i : ℕ) (col0 : List (Option ℚ))
    (hcol : Frame.lookupCol n X = some col0) (hmiss : col0[i]? = some none) :
    Frame.getCell n i (AltitudeTrans.transform st X).2 = some μ := by
  have htab : (AltitudeTrans.transform st X).2
      = st.columns.foldl (AltitudeTrans.stepCol st) X := rfl
  rw [htab, hcols, List.foldl_cons]
  obtain ⟨col, hc, hi⟩ := altitude_fold_keeps_cell st n i μ rest hn _
    (altitude_step_c1_fills st X c1 μ hμ n i col0 hcol hmiss)
  unfold Frame.getCell Frame.getColD
  rw [hc]
  simp only [Option.getD_some]
  rw [hi]
  rfl

/-- Witness for C9 (amended): the missing entry of the undesignated column
`z` ends up holding the first designated column's learned mean 10. -/
theorem altitudeTrans_fill_whole_table_witness :
    Frame.getCell "z" 0 (AltitudeTrans.transform (AltitudeTrans.fit ["a", "b"] altT9) altX9).2
      = some 10 :=
  altitudeTrans_fill_whole_table (AltitudeTrans.fit ["a", "b"] altT9) "a" ["b"] rfl 10
    (by rw [alt9_fit_eval]; decide) "z" (by decide) altX9 0 [none] (by decide) (by decide)

/-! ## `DateTransformer` lemmas (claim C6) -/

theorem Frame.names_cons {α : Type u} (e : String × List (Option α)) (t : Frame α) :
    Frame.names (e :: t) = e.1 :: Frame.names t := rfl

theorem Frame.hasCol_iff_mem_names {α : Type u} (c : String) (X : Frame α) :
    Frame.hasCol c X = true ↔ c ∈ Frame.names X := by
  induction X with
  | nil => simp [Frame.hasCol, Frame.names]
  | cons e t ih =>
    rw [Frame.names_cons, List.mem_cons, ← ih]
    show (decide (e.1 = c) || Frame.hasCol c t) = true ↔ _
    rw [Bool.or_eq_true, decide_eq_true_eq]
    constructor
    · rintro (h | h)
      · exact Or.inl h.symm
      · exact Or.inr h
    · rintro (h | h)
      · exact Or.inl h.symm
      · exact Or.inr h

theorem encode_one : DateTransformer.encode 1 = 1 := by
  unfold DateTransformer.encode
  norm_num [Real.cos_zero]

theorem encodeClaimed_one_ne_one : DateTransformer.encodeClaimed 1 ≠ 1 := by
  unfold DateTransformer.encodeClaimed
  intro h
  obtain ⟨k, hk⟩ := (Real.cos_eq_one_iff _).mp h
  rw [Nat.cast_one, mul_one] at hk
  have hp := Real.pi_pos
  have h2pi : (0 : ℝ) < 2 * Real.pi := by positivity
  rcases le_or_lt k 0 with hk0 | hk1
  · have hk0' : (k : ℝ) ≤ 0 := by exact_mod_cast hk0
    have hlhs : (k : ℝ) * (2 * Real.pi) ≤ 0 * (2 * Real.pi) :=
      mul_le_mul_of_nonneg_right hk0' (le_of_lt h2pi)
    rw [zero_mul] at hlhs
    have hrhs : (0 : ℝ) < 2 * Real.pi / 365.25 := by positivity
    linarith
  · have hk1' : (1 : ℝ) ≤ (k : ℝ) := by exact_mod_cast hk1
    have hlhs : 2 * Real.pi ≤ (k : ℝ) * (2 * Real.pi) :=
      le_mul_of_one_le_left (le_of_lt h2pi) hk1'
    have hrhs : 2 * Real.pi / 365.25 < 2 * Real.pi := by
      rw [div_lt_iff₀ (by norm_num : (0 : ℝ) < 365.25)]
      nlinarith
    linarith

theorem date_fold_keeps (parse : RVal → Option (ℕ × ℕ)) :
    ∀ (l : List String), "meteo_date" ∉ l → ∀ Y : Frame RVal,
      Frame.lookupCol "meteo_date"
          (l.foldl (fun Y c =>
            if c = "meteo_date" then Frame.mapCol c (List.map (dateCell parse)) Y
            else Frame.dropCol c Y) Y)
        = Frame.lookupCol "meteo_date" Y := by
  intro l
  induction l with
  | nil => intro _ _; rfl
  | cons j t ih =>
    intro hnl Y
    have hj : j ≠ "meteo_date" := fun hh => hnl (by rw [← hh]; exact List.mem_cons_self j t)
    have hnt : "meteo_date" ∉ t := fun hh => hnl (List.mem_cons_of_mem j hh)
    rw [List.foldl_cons, if_neg hj, ih hnt, Frame.lookupCol_dropCol_ne j "meteo_date" hj]

theorem date_fold_encodes (parse : RVal → Option (ℕ × ℕ)) :
    ∀ (l : List String), l.Nodup → "meteo_date" ∈ l → ∀ Y : Frame RVal,
      Frame.lookupCol "meteo_date"
          (l.foldl (fun Y c =>
            if c = "meteo_date" then Frame.mapCol c (List.map (dateCell parse)) Y
            else Frame.dropCol c Y) Y)
        = (Frame.lookupCol "meteo_date" Y).map (List.map (dateCell parse)) := by
  intro l
  induction l with
  | nil => intro _ h; exact absurd h (List.not_mem_nil _)
  | cons j t ih =>
    intro hnd hmem Y
    rw [List.foldl_cons]
    by_cases hj : j = "meteo_date"
    · subst hj
      rw [if_pos rfl, date_fold_keeps parse t (List.nodup_cons.mp hnd).1,
        Frame.lookupCol_mapCol_self]
    · have hmem' : "meteo_date" ∈ t := by
        rcases List.mem_cons.mp hmem with h | h
        · exact absurd h.symm hj
        · exact h
      rw [if_neg hj, ih (List.nodup_cons.mp hnd).2 hmem',
        Frame.lookupCol_dropCol_ne j "meteo_date" hj]

theorem time_fold_keeps :
    ∀ (l : List String), "meteo_date" ∉ l → ∀ Y : Frame RVal,
      Frame.lookupCol "meteo_date"
          (l.foldl (fun Y c => Frame.mapCol c (List.map timeCell) Y) Y)
        = Frame.lookupCol "meteo_date" Y := by
  intro l
  induction l with
  | nil => intro _ _; rfl
  | cons j t ih =>
    intro hnl Y
    have hj : j ≠ "meteo_date" := fun hh => hnl (by rw [← hh]; exact List.mem_cons_self j t)
    have hnt : "meteo_date" ∉ t := fun hh => hnl (List.mem_cons_of_mem j hh)
    rw [List.foldl_cons, ih hnt, Frame.lookupCol_mapCol_ne j "meteo_date" hj]

/-- Claim C6, counterexample: with day-of-year 1 (2021-01-01), the code's
encoding is `cos((1 - 1) · 2π / 365.25) = 1`, while the claimed formula
`cos(2π · 1 / 365.25)` is not 1 — the claim omits the code's `- 1`. -/
theorem dateTransformer_c6_counterexample :
    Frame.lookupCol "meteo_date"
        (DateTransformer.transform (DateTransformer.fit dtX0) dtParse0 dtX0)
      = some [some (RVal.num 1)]
    ∧ dtParse0 (RVal.str "2021-01-01") = some (1, 1)
    ∧ DateTransformer.encodeClaimed 1 ≠ 1 := by
  refine ⟨?_, rfl, encodeClaimed_one_ne_one⟩
  have hfit : DateTransformer.fit dtX0 = ⟨["meteo_date"], []⟩ := by decide
  unfold DateTransformer.transform
  rw [hfit]
  show Frame.lookupCol "meteo_date"
      ((if "meteo_date" = "meteo_date" then
          Frame.mapCol "meteo_date" (List.map (dateCell dtParse0)) dtX0
        else Frame.dropCol "meteo_date" dtX0)) = _
  rw [if_pos rfl, Frame.lookupCol_mapCol_self,
    show Frame.lookupCol "meteo_date" dtX0 = some [some (RVal.str "2021-01-01")] from rfl]
  simp only [Option.map_some', List.map_cons, List.map_nil]
  rw [show dateCell dtParse0 (some (RVal.str "2021-01-01"))
      = some (RVal.num (DateTransformer.encode 1)) from rfl]
  rw [encode_one]

/-- Claim C6 (amended): on a table with distinct column labels, the
transform maps each `meteo_date` cell that parses to day-of-year `d` to
`cos((d - 1) · 2π / 365.25)` — with the code's `- 1`, not the claimed
`cos(2π · d / 365.25)` — and each unparseable or missing cell to the missing
sentinel rather than raising. -/
theorem dateTransformer_meteo_date_encoding (parse : RVal → Option (ℕ × ℕ)) (X : Frame RVal)
    (hnd : (Frame.names X).Nodup) :
    Frame.lookupCol "meteo_date" (DateTransformer.transform (DateTransformer.fit X) parse X)
      = (Frame.lookupCol "meteo_date" X).map (List.map (fun cell =>
          (cell.bind parse).map (fun p =>
            RVal.num (Real.cos (((p.2 : ℝ) - 1) * 2 * Real.pi / 365.25))))) := by
  rw [show (fun cell => (cell.bind parse).map (fun p =>
      RVal.num (Real.cos (((p.2 : ℝ) - 1) * 2 * Real.pi / 365.25)))) = dateCell parse from rfl]
  unfold DateTransformer.transform DateTransformer.fit
  rw [time_fold_keeps _ (fun hmem => absurd (List.mem_filter.mp hmem).2 (by decide))]
  by_cases hm : "meteo_date" ∈ Frame.names X
  · exact date_fold_encodes parse _ (hnd.filter _)
      (List.mem_filter.mpr ⟨hm, by decide⟩) X
  · rw [date_fold_keeps parse _ (fun hmem => hm (List.mem_filter.mp hmem).1)]
    have hnone : Frame.lookupCol "meteo_date" X = none := by
      cases hl : Frame.lookupCol "meteo_date" X with
      | none => rfl
      | some col =>
        exfalso
        apply hm
        rw [← Frame.hasCol_iff_mem_names, Frame.hasCol_eq_isSome, hl]
        rfl
    rw [hnone]
    rfl

/-- Witness for C6 (amended) on the concrete one-column date table. -/
theorem dateTransformer_meteo_date_encoding_witness :
    Frame.lookupCol "meteo_date"
        (DateTransformer.transform (DateTransformer.fit dtX0) dtParse0 dtX0)
      = (Frame.lookupCol "meteo_date" dtX0).map (List.map (fun cell =>
          (cell.bind dtParse0).map (fun p =>
            RVal.num (Real.cos (((p.2 : ℝ) - 1) * 2 * Real.pi / 365.25))))) :=
  dateTransformer_meteo_date_encoding dtParse0 dtX0 (by decide)

/-! ## `CleanFeatures` lemmas (claims C8 and C10) -/

theorem lookupCol_medianFillStep_ne (np : String → Option ℚ) (dept c n : String)
    (hcn : c ≠ n) (Y : Frame Val) :
    Frame.lookupCol n (medianFillStep np dept c Y) = Frame.lookupCol n Y := by
  unfold medianFillStep
  rw [Frame.lookupCol_setCol_ne c n hcn, Frame.lookupCol_setCol_ne c n hcn]

theorem lookupCol_medianFillStep_self (np : String → Option ℚ) (dept c : String)
    (Y : Frame Val) :
    Frame.lookupCol c (medianFillStep np dept c Y)
      = some (medianFilledCol
          (Frame.getColD dept (Frame.setCol c (coerceCol np (Frame.getColD c Y)) Y))
          (coerceCol np (Frame.getColD c Y))) := by
  unfold medianFillStep
  rw [Frame.lookupCol_setCol_self]

theorem rainStep_congr (dept dcol : String) (m1 m2 : List ((Val × ℚ) × Option ℚ))
    (cols : List String) (md1 md2 : List (String × List (Val × Option ℚ)))
    (pdt : Val → Option (ℕ × ℕ)) (X : Frame Val) :
    ∀ n, n ≠ meteoName →
      Frame.lookupCol n (rainStep ⟨dept, dcol, m1, cols, md1⟩ pdt X)
        = Frame.lookupCol n (rainStep ⟨dept, dcol, m2, cols, md2⟩ pdt X) := by
  intro n hn
  unfold rainStep
  dsimp only
  by_cases hnm : n = "month"
  · subst hnm
    rw [Frame.lookupCol_dropCol_self, Frame.lookupCol_dropCol_self]
  · have hmn : "month" ≠ n := fun hh => hnm hh.symm
    have hmet : meteoName ≠ n := fun hh => hn hh.symm
    rw [Frame.lookupCol_dropCol_ne "month" n hmn, Frame.lookupCol_dropCol_ne "month" n hmn,
      Frame.lookupCol_mapCol_ne meteoName n hmet, Frame.lookupCol_mapCol_ne meteoName n hmet]

theorem cf_fold_congr (np : String → Option ℚ) (dept : String) (hd : dept ≠ meteoName) :
    ∀ (l : List String) (Y1 Y2 : Frame Val),
      (∀ n, n ≠ meteoName → Frame.lookupCol n Y1 = Frame.lookupCol n Y2) →
      ∀ n, n ≠ meteoName →
        Frame.lookupCol n (l.foldl (fun Y c =>
            if c = meteoName then Y else medianFillStep np dept c Y) Y1)
          = Frame.lookupCol n (l.foldl (fun Y c =>
            if c = meteoName then Y else medianFillStep np dept c Y) Y2) := by
  intro l
  induction l with
  | nil =>
    intro Y1 Y2 hR n hn
    exact hR n hn
  | cons j t ih =>
    intro Y1 Y2 hR n hn
    rw [List.foldl_cons, List.foldl_cons]
    by_cases hj : j = meteoName
    · rw [if_pos hj, if_pos hj]
      exact ih Y1 Y2 hR n hn
    · rw [if_neg hj, if_neg hj]
      refine ih _ _ ?_ n hn
      intro n2 hn2
      by_cases hjn : j = n2
      · subst hjn
        rw [lookupCol_medianFillStep_self, lookupCol_medianFillStep_self]
        have hco : Frame.getColD j Y1 = Frame.getColD j Y2 := by
          unfold Frame.getColD
          rw [hR j hj]
        rw [hco]
        have hdd : Frame.getColD dept (Frame.setCol j (coerceCol np (Frame.getColD j Y2)) Y1)
            = Frame.getColD dept (Frame.setCol j (coerceCol np (Frame.getColD j Y2)) Y2) := by
          unfold Frame.getColD
          by_cases hjd : j = dept
          · subst hjd
            rw [Frame.lookupCol_setCol_self, Frame.lookupCol_setCol_self]
          · rw [Frame.lookupCol_setCol_ne j dept hjd, Frame.lookupCol_setCol_ne j dept hjd,
              hR dept hd]
        rw [hdd]
      · rw [lookupCol_medianFillStep_ne np dept j n2 hjn,
          lookupCol_medianFillStep_ne np dept j n2 hjn]
        exact hR n2 hn2

/-- Claim C8: in `CleanFeatures.transform`, each designated non-rainfall
column is filled from the per-department medians of the table passed to
transform itself, not from fit-time state: two instances sharing the
designated columns and key column names but holding arbitrarily different
fit-time statistics produce identical values for every non-rainfall
column. -/
theorem cleanFeatures_median_transform_local (dept dcol : String) (cols : List String)
    (m1 m2 : List ((Val × ℚ) × Option ℚ)) (md1 md2 : List (String × List (Val × Option ℚ)))
    (pdt : Val → Option (ℕ × ℕ)) (np : String → Option ℚ) (X : Frame Val) (c : String)
    (_hc : c ∈ cols) (hcm : c ≠ meteoName) (hd : dept ≠ meteoName) :
    Frame.lookupCol c (CleanFeatures.transform ⟨dept, dcol, m1, cols, md1⟩ pdt np X)
      = Frame.lookupCol c (CleanFeatures.transform ⟨dept, dcol, m2, cols, md2⟩ pdt np X) := by
  unfold CleanFeatures.transform
  dsimp only
  by_cases hmet : meteoName ∈ cols
  · simp only [if_pos hmet]
    exact cf_fold_congr np dept hd cols _ _
      (rainStep_congr dept dcol m1 m2 cols md1 md2 pdt X) c hcm
  · simp only [if_neg hmet]

/-- Witness for C8: two states with different fit-time statistics transform
`cfX0` to the same values on the designated column `i`. -/
theorem cleanFeatures_median_transform_local_witness :
    Frame.lookupCol "i" (CleanFeatures.transform cfSt1 pdt0 np0 cfX0)
      = Frame.lookupCol "i" (CleanFeatures.transform cfSt2 pdt0 np0 cfX0) :=
  cleanFeatures_median_transform_local "d" "date" ["i"] [] [((Val.str "x", 1), some 5)]
    [] [("i", [(Val.str "x", some 9)])] pdt0 np0 cfX0 "i"
    (by decide) (by decide) (by decide)

theorem fitStep_meteo (dept : String) (np : String → Option ℚ)
    (acc : Frame Val × List (String × List (Val × Option ℚ))) :
    CleanFeatures.fitStep dept np acc meteoName = acc := by
  unfold CleanFeatures.fitStep
  rw [if_pos rfl]

theorem fitStep_ne (dept : String) (np : String → Option ℚ) (Y : Frame Val)
    (ms : List (String × List (Val × Option ℚ))) (c : String) (h : c ≠ meteoName) :
    CleanFeatures.fitStep dept np (Y, ms) c
      = (Frame.setCol c (coerceCol np (Frame.getColD c Y)) Y,
         ms ++ [(c, deptMedians
           (Frame.getColD dept (Frame.setCol c (coerceCol np (Frame.getColD c Y)) Y))
           (coerceCol np (Frame.getColD c Y)))]) := by
  unfold CleanFeatures.fitStep
  rw [if_neg h]

theorem cffit_loop_keeps (dept : String) (np : String → Option ℚ) :
    ∀ (l : List String) (Y : Frame Val) (ms : List (String × List (Val × Option ℚ)))
      (n : String), (∀ c ∈ l, c ≠ meteoName → c ≠ n) →
      Frame.lookupCol n (l.foldl (CleanFeatures.fitStep dept np) (Y, ms)).1
        = Frame.lookupCol n Y := by
  intro l
  induction l with
  | nil =>
    intro Y ms n _
    rfl
  | cons j t ih =>
    intro Y ms n h
    rw [List.foldl_cons]
    by_cases hj : j = meteoName
    · subst hj
      rw [fitStep_meteo]
      exact ih Y ms n (fun c hc hcm => h c (List.mem_cons_of_mem _ hc) hcm)
    · have hjn : j ≠ n := h j (List.mem_cons_self j t) hj
      rw [fitStep_ne dept np Y ms j hj,
        ih _ _ n (fun c hc hcm => h c (List.mem_cons_of_mem j hc) hcm),
        Frame.lookupCol_setCol_ne j n hjn]

theorem cffit_loop_hasCol (dept : String) (np : String → Option ℚ) :
    ∀ (l : List String) (Y : Frame Val) (ms : List (String × List (Val × Option ℚ)))
      (n : String), Frame.hasCol n Y = true →
      Frame.hasCol n (l.foldl (CleanFeatures.fitStep dept np) (Y, ms)).1 = true := by
  intro l
  induction l with
  | nil =>
    intro Y ms n h
    exact h
  | cons j t ih =>
    intro Y ms n h
    rw [List.foldl_cons]
    by_cases hj : j = meteoName
    · subst hj
      rw [fitStep_meteo]
      exact ih Y ms n h
    · rw [fitStep_ne dept np Y ms j hj]
      exact ih _ _ n (Frame.hasCol_setCol_of j n _ Y h)

theorem cffit_loop_processed (dept : String) (np : String → Option ℚ) :
    ∀ (l : List String) (Y : Frame Val) (ms : List (String × List (Val × Option ℚ)))
      (c : String), c ∈ l → c ≠ meteoName → l.Nodup → Frame.hasCol c Y = true →
      Frame.lookupCol c (l.foldl (CleanFeatures.fitStep dept np) (Y, ms)).1
        = (Frame.lookupCol c Y).map (coerceCol np) := by
  intro l
  induction l with
  | nil =>
    intro Y ms c h
    exact absurd h (List.not_mem_nil c)
  | cons j t ih =>
    intro Y ms c hmem hcm hnd hhas
    rw [List.foldl_cons]
    by_cases hjc : j = c
    · subst hjc
      have hjt : j ∉ t := (List.nodup_cons.mp hnd).1
      rw [fitStep_ne dept np Y ms j hcm,
        cffit_loop_keeps dept np t _ _ j (fun c2 hc2 _ hh => hjt (hh ▸ hc2)),
        Frame.lookupCol_setCol_self]
      rw [Frame.hasCol_eq_isSome] at hhas
      obtain ⟨col, hcol⟩ := Option.isSome_iff_exists.mp hhas
      rw [hcol]
      unfold Frame.getColD
      rw [hcol]
      rfl
    · have hmem' : c ∈ t := by
        rcases List.mem_cons.mp hmem with h | h
        · exact absurd h.symm hjc
        · exact h
      by_cases hj : j = meteoName
      · subst hj
        rw [fitStep_meteo]
        exact ih Y ms c hmem' hcm (List.nodup_cons.mp hnd).2 hhas
      · rw [fitStep_ne dept np Y ms j hj,
          ih _ _ c hmem' hcm (List.nodup_cons.mp hnd).2
            (Frame.hasCol_setCol_of j c _ Y hhas),
          Frame.lookupCol_setCol_ne j c hjc]

theorem cffit_snd (dept dcol : String) (cols : List String) (pdt : Val → Option (ℕ × ℕ))
    (np : String → Option ℚ) (X : Frame Val) :
    (CleanFeatures.fit dept dcol cols pdt np X).2
      = (cols.foldl (CleanFeatures.fitStep dept np)
          ((if meteoName ∈ cols then
              Frame.setCol "month"
                (monthCol (Frame.getColD dcol (Frame.mapCol dcol (convertDateCol pdt) X)))
                (Frame.mapCol dcol (convertDateCol pdt) X)
            else X), [])).1 := rfl

/-- Claim C10: `CleanFeatures.fit` mutates the caller's table in place (the
embedding returns that table): with the rainfall column designated, it
converts the date column to datetimes, adds the derived `month` column, and
coerces every designated non-rainfall column to numeric, so the caller's
table is observably different after `fit` returns. -/
theorem cleanFeatures_fit_mutates_caller (dept dcol : String) (cols : List String)
    (pdt : Val → Option (ℕ × ℕ)) (np : String → Option ℚ) (X : Frame Val)
    (hm : meteoName ∈ cols) (hmonth : Frame.hasCol "month" X = false)
    (hnd : cols.Nodup) (hdm : dcol ≠ "month")
    (hcols : ∀ c ∈ cols, c ≠ meteoName →
      Frame.hasCol c X = true ∧ c ≠ dcol ∧ c ≠ "month") :
    Frame.hasCol "month" (CleanFeatures.fit dept dcol cols pdt np X).2 = true
    ∧ (CleanFeatures.fit dept dcol cols pdt np X).2 ≠ X
    ∧ Frame.lookupCol dcol (CleanFeatures.fit dept dcol cols pdt np X).2
        = (Frame.lookupCol dcol X).map (convertDateCol pdt)
    ∧ ∀ c ∈ cols, c ≠ meteoName →
        Frame.lookupCol c (CleanFeatures.fit dept dcol cols pdt np X).2
          = (Frame.lookupCol c X).map (coerceCol np) := by
  have hX1 : (CleanFeatures.fit dept dcol cols pdt np X).2
      = (cols.foldl (CleanFeatures.fitStep dept np)
          (Frame.setCol "month"
            (monthCol (Frame.getColD dcol (Frame.mapCol dcol (convertDateCol pdt) X)))
            (Frame.mapCol dcol (convertDateCol pdt) X), [])).1 := by
    rw [cffit_snd, if_pos hm]
  have h1 : Frame.hasCol "month" (CleanFeatures.fit dept dcol cols pdt np X).2 = true := by
    rw [hX1]
    exact cffit_loop_hasCol dept np cols _ [] "month" (Frame.hasCol_setCol_self "month" _ _)
  refine ⟨h1, ?_, ?_, ?_⟩
  · intro heq
    rw [heq, hmonth] at h1
    exact Bool.noConfusion h1
  · rw [hX1,
      cffit_loop_keeps dept np cols _ [] dcol (fun c hc hcm => (hcols c hc hcm).2.1),
      Frame.lookupCol_setCol_ne "month" dcol (fun hh => hdm hh.symm),
      Frame.lookupCol_mapCol_self]
  · intro c hc hcm
    obtain ⟨hhasX, hcd, hcmn⟩ := hcols c hc hcm
    have hlookX1 : Frame.lookupCol c
        (Frame.setCol "month"
          (monthCol (Frame.getColD dcol (Frame.mapCol dcol (convertDateCol pdt) X)))
          (Frame.mapCol dcol (convertDateCol pdt) X)) = Frame.lookupCol c X := by
      rw [Frame.lookupCol_setCol_ne "month" c (fun hh => hcmn hh.symm),
        Frame.lookupCol_mapCol_ne dcol c (fun hh => hcd hh.symm)]
    have hhasX1 : Frame.hasCol c
        (Frame.setCol "month"
          (monthCol (Frame.getColD dcol (Frame.mapCol dcol (convertDateCol pdt) X)))
          (Frame.mapCol dcol (convertDateCol pdt) X)) = true := by
      rw [Frame.hasCol_eq_isSome, hlookX1, ← Frame.hasCol_eq_isSome]
      exact hhasX
    rw [hX1, cffit_loop_processed dept np cols _ [] c hc hcm hnd hhasX1, hlookX1]

/-- Witness for C10: fitting on `cfX10` adds the `month` column and leaves
the caller's table changed. -/
theorem cleanFeatures_fit_mutates_caller_witness :
    Frame.hasCol "month" (CleanFeatures.fit "d" "date" [meteoName, "i"] pdt0 np0 cfX10).2 = true
    ∧ (CleanFeatures.fit "d" "date" [meteoName, "i"] pdt0 np0 cfX10).2 ≠ cfX10 := by
  have h := cleanFeatures_fit_mutates_caller "d" "date" [meteoName, "i"] pdt0 np0 cfX10
    (by decide) (by decide) (by decide) (by decide) (by decide)
  exact ⟨h.1, h.2.1⟩
